import Mathlib

/-!
Verification of the vulnerability-report parser (`src/parsers/parse_reports.py`)
and the LLM policy-response parser
(`src/generation-evaluation-policies/generate/generate-policies.py`).

The Python code is shallowly embedded: JSON values become the inductive type
`JVal`, dictionary / list / string primitives of Python become explicit Lean
functions returning `Except PyError _` where the Python operation can raise,
and each extractor method of `VulnerabilityParser` becomes a Lean function
from the decoded report to the list of produced records (paired with the
exception, if any, that interrupted it).
-/

/-! ### Python primitives used by both embedded modules -/

/-! ### `parse_policy_response`
(`src/generation-evaluation-policies/generate/generate-policies.py`) -/

/-! ### Python primitives used by `parse_reports.py` -/

/-! ### `VulnerabilityParser` class data (`src/parsers/parse_reports.py`) -/

/-! ### The extractors -/

/-! ### The ZAP XML extractor

A minimal model of `xml.etree.ElementTree`: elements with a tag, the text
between the start tag and the first child (`None` when empty), and child
elements.  Attributes, entities and tail text are not used by
`_parse_zap_xml` and are skipped / unsupported. -/

/-! ### `parse_all`, `save_results` and the aggregate counts -/

/-! ### Helper lemmas -/

set_option maxRecDepth 10000

namespace DevSecOps

/-- JSON values, as produced by Python's `json.loads`.
Numbers are restricted to integers (the repository's data uses none other). -/

inductive JVal where
  | null : JVal
  | bool : Bool → JVal
  | num : Int → JVal
  | str : String → JVal
  | arr : List JVal → JVal
  | obj : List (String × JVal) → JVal

/-- Python exceptions that the embedded code can raise. -/

inductive PyError where
  | valueError : String → PyError
  | typeError : String → PyError
  | attributeError : String → PyError
  | indexError : String → PyError
  | keyError : String → PyError
  | jsonDecodeError : String → PyError
  | xmlParseError : String → PyError

deriving Repr, DecidableEq

mutual

/-- Structural equality on JSON values (Python `==` on decoded JSON data). -/

def JVal.beq : JVal → JVal → Bool
  | .null, .null => true
  | .bool a, .bool b => a == b
  | .num a, .num b => a == b
  | .str a, .str b => a == b
  | .arr a, .arr b => JVal.beqList a b
  | .obj a, .obj b => JVal.beqFields a b
  | _, _ => false

def JVal.beqList : List JVal → List JVal → Bool
  | [], [] => true
  | x :: xs, y :: ys => JVal.beq x y && JVal.beqList xs ys
  | _, _ => false

def JVal.beqFields : List (String × JVal) → List (String × JVal) → Bool
  | [], [] => true
  | (k1, v1) :: xs, (k2, v2) :: ys => k1 == k2 && JVal.beq v1 v2 && JVal.beqFields xs ys
  | _, _ => false
end

/-- Whitespace skipped by the JSON grammar (RFC 8259 / Python `json`). -/

def isJsonWs (c : Char) : Bool := c = ' ' || c = '\t' || c = '\n' || c = '\r'

/-- Characters stripped by Python's `str.strip()`. -/

def isPyStripWs (c : Char) : Bool :=
  c = ' ' || c = '\t' || c = '\n' || c = '\r' || c = '\x0b' || c = '\x0c'

def skipJsonWs (cs : List Char) : List Char := cs.dropWhile isJsonWs

def hexDigitVal (c : Char) : Option Nat :=
  if '0' ≤ c ∧ c ≤ '9' then some (c.toNat - '0'.toNat)
  else if 'a' ≤ c ∧ c ≤ 'f' then some (c.toNat - 'a'.toNat + 10)
  else if 'A' ≤ c ∧ c ≤ 'F' then some (c.toNat - 'A'.toNat + 10)
  else none

def hex4 (a b c d : Char) : Option Nat := do
  let x1 ← hexDigitVal a
  let x2 ← hexDigitVal b
  let x3 ← hexDigitVal c
  let x4 ← hexDigitVal d
  pure (((x1 * 16 + x2) * 16 + x3) * 16 + x4)

/-- Decode one escape sequence after a backslash: the decoded character and
the remaining input. -/
def decodeEscape (e : Char) (rest2 : List Char) : Option (Char × List Char) :=
  if e = '"' then some ('"', rest2)
  else if e = '\\' then some ('\\', rest2)
  else if e = '/' then some ('/', rest2)
  else if e = 'b' then some ('\x08', rest2)
  else if e = 'f' then some ('\x0c', rest2)
  else if e = 'n' then some ('\n', rest2)
  else if e = 'r' then some ('\r', rest2)
  else if e = 't' then some ('\t', rest2)
  else if e = 'u' then
    match rest2 with
    | h1 :: h2 :: h3 :: h4 :: rest3 =>
      (match hex4 h1 h2 h3 h4 with
       | some n =>
         if n < 1114112 ∧ ¬ (55296 ≤ n ∧ n < 57344) then
           some (Char.ofNat n, rest3)
         else none
       | none => none)
    | _ => none
  else none

/-- Body of a JSON string literal (after the opening quote): returns the
decoded characters and the remaining input after the closing quote. -/
def parseJStrAux (fuel : Nat) (acc : List Char) (cs : List Char) :
    Option (List Char × List Char) :=
  match fuel, cs with
  | 0, _ => none
  | _, [] => none
  | fuel + 1, c :: rest =>
    if c = '"' then some (acc.reverse, rest)
    else if c = '\\' then
      match rest with
      | [] => none
      | e :: rest2 =>
        (match decodeEscape e rest2 with
         | some (d, rest3) => parseJStrAux fuel (d :: acc) rest3
         | none => none)
    else if c.toNat < 32 then none
    else parseJStrAux fuel (c :: acc) rest

def digitsToNat (acc : Nat) : List Char → Nat
  | [] => acc
  | c :: cs => digitsToNat (acc * 10 + (c.toNat - '0'.toNat)) cs

/-- Model of a JSON integer literal: optional minus sign, then digits. -/
def parseJNum (cs : List Char) : Option (Int × List Char) :=
  match cs with
  | '-' :: cs1 =>
    let ds := cs1.takeWhile Char.isDigit
    let rest := cs1.dropWhile Char.isDigit
    if ds.isEmpty then none
    else some (-(Int.ofNat (digitsToNat 0 ds)), rest)
  | _ =>
    let ds := cs.takeWhile Char.isDigit
    let rest := cs.dropWhile Char.isDigit
    if ds.isEmpty then none
    else some (Int.ofNat (digitsToNat 0 ds), rest)

/-- Insert a key into an object, replacing an existing binding
(CPython's `json` keeps the last of duplicate keys). -/

def insertField (fs : List (String × JVal)) (k : String) (v : JVal) :
    List (String × JVal) :=
  if fs.any (fun p => p.1 = k) then
    fs.map (fun p => if p.1 = k then (k, v) else p)
  else fs ++ [(k, v)]

mutual

/-- One JSON value; `fuel` bounds nesting depth. -/

def parseJVal (fuel : Nat) (cs : List Char) : Option (JVal × List Char) :=
  match fuel with
  | 0 => none
  | fuel + 1 =>
    match skipJsonWs cs with
    | 'n' :: 'u' :: 'l' :: 'l' :: rest => some (.null, rest)
    | 't' :: 'r' :: 'u' :: 'e' :: rest => some (.bool true, rest)
    | 'f' :: 'a' :: 'l' :: 's' :: 'e' :: rest => some (.bool false, rest)
    | '"' :: rest =>
      match parseJStrAux (rest.length + 1) [] rest with
      | some (chars, rest2) => some (.str (String.mk chars), rest2)
      | none => none
    | '[' :: rest =>
      (match skipJsonWs rest with
       | ']' :: rest2 => some (.arr [], rest2)
       | _ =>
         match parseJItems fuel rest with
         | some (items, rest2) => some (.arr items, rest2)
         | none => none)
    | '{' :: rest =>
      (match skipJsonWs rest with
       | '}' :: rest2 => some (.obj [], rest2)
       | _ =>
         match parseJFields fuel [] rest with
         | some (fs, rest2) => some (.obj fs, rest2)
         | none => none)
    | cs' =>
      match parseJNum cs' with
      | some (n, rest) => some (.num n, rest)
      | none => none

/-- Comma-separated array items, up to and including the closing bracket. -/

def parseJItems (fuel : Nat) (cs : List Char) : Option (List JVal × List Char) :=
  match fuel with
  | 0 => none
  | fuel + 1 =>
    match parseJVal fuel cs with
    | none => none
    | some (v, rest) =>
      match skipJsonWs rest with
      | ',' :: rest2 =>
        (match parseJItems fuel rest2 with
         | some (vs, rest3) => some (v :: vs, rest3)
         | none => none)
      | ']' :: rest2 => some ([v], rest2)
      | _ => none

/-- Comma-separated object members, up to and including the closing brace. -/

def parseJFields (fuel : Nat) (acc : List (String × JVal)) (cs : List Char) :
    Option (List (String × JVal) × List Char) :=
  match fuel with
  | 0 => none
  | fuel + 1 =>
    match skipJsonWs cs with
    | '"' :: rest =>
      (match parseJStrAux (rest.length + 1) [] rest with
       | none => none
       | some (kchars, rest2) =>
         match skipJsonWs rest2 with
         | ':' :: rest3 =>
           (match parseJVal fuel rest3 with
            | none => none
            | some (v, rest4) =>
              let acc' := insertField acc (String.mk kchars) v
              match skipJsonWs rest4 with
              | ',' :: rest5 => parseJFields fuel acc' rest5
              | '}' :: rest5 => some (acc', rest5)
              | _ => none)
         | _ => none)
    | _ => none
end

/-- Model of Python `json.loads`: `none` when `json.loads` would raise
`json.JSONDecodeError`.  The whole input must be consumed. -/

def loads (s : String) : Option JVal :=
  match parseJVal (s.length + 1) s.data with
  | some (v, rest) => if (skipJsonWs rest).isEmpty then some v else none
  | none => none

/-- Model of `needle in hay` for Python strings (substring containment). -/

def subList (needle : List Char) : List Char → Bool
  | [] => needle.isEmpty
  | c :: t => needle.isPrefixOf (c :: t) || subList needle t

/-- Python `str.strip()`. -/

def pyStrip (s : String) : String :=
  String.mk (((s.data.dropWhile isPyStripWs).reverse.dropWhile isPyStripWs).reverse)

/-- Python `a.startswith(pre)`. -/

def startsWithStr (s pre : String) : Bool := pre.data.isPrefixOf s.data

def splitOnNlAux (acc : List Char) : List Char → List String
  | [] => [String.mk acc.reverse]
  | c :: rest =>
    if c = '\n' then String.mk acc.reverse :: splitOnNlAux [] rest
    else splitOnNlAux (c :: acc) rest

/-- Python `s.split("\n")`. -/

def splitNl (s : String) : List String := splitOnNlAux [] s.data

/-- Python `"\n".join(l)`. -/

def joinNl (l : List String) : String := String.intercalate "\n" l

/-- Python `container in`-test (`x in d`): dict keys, list membership,
substring for strings; `TypeError` otherwise. -/

def pyContains (container : JVal) (key : String) : Except PyError Bool :=
  match container with
  | .obj fs => .ok (fs.any (fun p => p.1 = key))
  | .arr xs => .ok (xs.any (fun x => JVal.beq x (.str key)))
  | .str s => .ok (subList key.data s.data)
  | _ => .error (.typeError "argument is not iterable")

/-- Python subscript `v[key]` with a string key. -/

def pyGetItem (v : JVal) (key : String) : Except PyError JVal :=
  match v with
  | .obj fs =>
    (match fs.find? (fun p => p.1 = key) with
     | some p => .ok p.2
     | none => .error (.keyError key))
  | .arr _ => .error (.typeError "list indices must be integers")
  | .str _ => .error (.typeError "string indices must be integers")
  | _ => .error (.typeError "object is not subscriptable")

/-- Python `len(v)`. -/

def pyLen : JVal → Except PyError Nat
  | .arr xs => .ok xs.length
  | .obj fs => .ok fs.length
  | .str s => .ok s.length
  | _ => .error (.typeError "object has no len")

/-- The markdown code-fence removal at the top of `parse_policy_response`. -/

def stripCodeFence (t : String) : String :=
  if startsWithStr t "```" then
    let lines := splitNl t
    if startsWithStr (lines.headD "") "```json" || startsWithStr (lines.headD "") "```" then
      if startsWithStr (lines.getLastD "") "```" then joinNl ((lines.drop 1).dropLast)
      else joinNl (lines.drop 1)
    else t
  else t

/-- Model of `response_text.strip()` followed by code-fence removal (lines 224-230). -/

def preprocess (s : String) : String := stripCodeFence (pyStrip s)

/-- Characters of Python's `\s` class for the `re` module (ASCII part). -/

def reWs (c : Char) : Bool :=
  c = ' ' || c = '\t' || c = '\n' || c = '\r' || c = '\x0b' || c = '\x0c'

/-- Try to match the regex `"policies"\s*:\s*\[` at the head of `cs`;
on success return the suffix starting at the `[` (the code sets
`start_idx = policies_match.end() - 1` to include the bracket). -/

def matchPoliciesHere (cs : List Char) : Option (List Char) :=
  if ("\"policies\"".data).isPrefixOf cs then
    match (cs.drop 10).dropWhile reWs with
    | ':' :: rest3 =>
      (match rest3.dropWhile reWs with
       | '[' :: rest4 => some ('[' :: rest4)
       | _ => none)
    | _ => none
  else none

/-- Model of `re.search(r'"policies"\s*:\s*\[', response_text)`: first match wins. -/

def findPoliciesArr : List Char → Option (List Char)
  | [] => none
  | c :: rest =>
    match matchPoliciesHere (c :: rest) with
    | some r => some r
    | none => findPoliciesArr rest

/-- The mutable locals of the extraction loop in `parse_policy_response`
(lines 267-271). -/

structure ScanSt where
  bracket_depth : Int
  in_string : Bool
  escape_next : Bool
  current_policy : List Char
  policies_text : List JVal

def initScan : ScanSt := ⟨0, false, false, [], []⟩

/-- The per-character state update of the extraction loop (lines 275-316):
escaped characters are consumed literally, an unescaped quote toggles
`in_string`, and braces adjust `bracket_depth` only outside strings. -/

def scanStep (st : ScanSt) (c : Char) : ScanSt :=
  if st.escape_next then
    { st with current_policy := st.current_policy ++ [c], escape_next := false }
  else if c = '\\' then
    { st with current_policy := st.current_policy ++ [c], escape_next := true }
  else if c = '"' then
    { st with in_string := !st.in_string, current_policy := st.current_policy ++ [c] }
  else if !st.in_string then
    if c = '{' then
      { st with bracket_depth := st.bracket_depth + 1,
                current_policy := st.current_policy ++ [c] }
    else if c = '}' then
      { st with bracket_depth := st.bracket_depth - 1,
                current_policy := st.current_policy ++ [c] }
    else { st with current_policy := st.current_policy ++ [c] }
  else { st with current_policy := st.current_policy ++ [c] }

/-- Whether the current character triggers the `bracket_depth == 0`
completion check of lines 296-299 (an unescaped `}` outside a string
that brings the depth back to zero). -/

def scanCompletes (st : ScanSt) (c : Char) : Bool :=
  !st.escape_next && !st.in_string && c == '}' && (st.bracket_depth - 1 == 0)

/-- The separator characters skipped after a completed object (line 310). -/

def sepChars : List Char := [' ', '\n', '\r', '\t', ',']

def dropSep (cs : List Char) : List Char := cs.dropWhile (fun c => sepChars.contains c)

/-- The extraction loop of `parse_policy_response` (lines 273-318): on a
completed candidate, a successful `json.loads` appends the object and resets
the accumulator; a failed parse leaves the accumulator as it is.  Every
iteration consumes at least one character, so running with `fuel`
exceeding the input length is exact; the fuel only justifies termination. -/

def scanLoop (fuel : Nat) (cs : List Char) (st : ScanSt) : ScanSt :=
  match fuel, cs with
  | 0, _ => st
  | _, [] => st
  | fuel + 1, c :: rest =>
    let st2 := scanStep st c
    if scanCompletes st c then
      match loads (String.mk st2.current_policy) with
      | some v =>
        scanLoop fuel (dropSep rest)
          { st2 with policies_text := st2.policies_text ++ [v], current_policy := [] }
      | none => scanLoop fuel (dropSep rest) st2
    else scanLoop fuel rest st2

/-- Same control flow as `scanLoop`, but recording the candidate strings on
which the completion check fires (the `policy_str` values handed to
`json.loads` at line 303): used to observe where the loop recognizes an
object as complete. -/

def scanAttempts (fuel : Nat) (cs : List Char) (st : ScanSt) : List (List Char) :=
  match fuel, cs with
  | 0, _ => []
  | _, [] => []
  | fuel + 1, c :: rest =>
    let st2 := scanStep st c
    if scanCompletes st c then
      st2.current_policy ::
        (match loads (String.mk st2.current_policy) with
         | some v =>
           scanAttempts fuel (dropSep rest)
             { st2 with policies_text := st2.policies_text ++ [v], current_policy := [] }
         | none => scanAttempts fuel (dropSep rest) st2)
    else scanAttempts fuel rest st2

/-- Runs `scanAttempts` to completion on an input. -/

def scanAttemptsOn (cs : List Char) (st : ScanSt) : List (List Char) :=
  scanAttempts (cs.length + 1) cs st

/-- The partial-extraction block of `parse_policy_response` (lines 256-330):
the recovered complete policy objects (empty when no `"policies": [` match
or no candidate parses). -/

def recoverPolicies (t : String) : List JVal :=
  match findPoliciesArr t.data with
  | none => []
  | some cs => (scanLoop (cs.length + 1) cs initScan).policies_text

/-- The observable outcome of `parse_policy_response`: the `policies` value,
the `total_policies` metadata count, and the `is_truncated` metadata flag
(absent, i.e. `false`, on the fully-parsed path). -/

structure ParsedResponse where
  policies : JVal
  total_policies : Nat
  is_truncated : Bool

/-- Model of `parse_policy_response` (lines 221-347).  A `.error` value models an
uncaught Python exception escaping the function. -/

def parse_policy_response (response_text : String) : Except PyError ParsedResponse :=
  let t := preprocess response_text
  match loads t with
  | some policy_data =>
    (match pyContains policy_data "policies" with
     | .error e => .error e
     | .ok hasPolicies =>
       let wrapped : Except PyError JVal :=
         if !hasPolicies then
           match policy_data with
           | .arr xs => .ok (.obj [("policies", .arr xs)])
           | _ => .error (.valueError "Response does not contain policies field")
         else .ok policy_data
       match wrapped with
       | .error e => .error e
       | .ok pd =>
         match pyGetItem pd "policies" with
         | .error e => .error e
         | .ok parr =>
           match pyLen parr with
           | .error e => .error e
           | .ok n => .ok { policies := parr, total_policies := n, is_truncated := false })
  | none =>
    let extracted := recoverPolicies t
    .ok { policies := .arr extracted, total_policies := extracted.length,
          is_truncated := true }

/-- Python `d.get(key, default)` (dicts only; `AttributeError` otherwise). -/

def dget (v : JVal) (key : String) (dflt : JVal) : Except PyError JVal :=
  match v with
  | .obj fs =>
    (match fs.find? (fun p => p.1 = key) with
     | some p => .ok p.2
     | none => .ok dflt)
  | _ => .error (.attributeError "object has no attribute get")

/-- Python `v[0]`. -/

def pyIndexZero (v : JVal) : Except PyError JVal :=
  match v with
  | .arr [] => .error (.indexError "list index out of range")
  | .arr (x :: _) => .ok x
  | .str s =>
    (match s.data with
     | [] => .error (.indexError "string index out of range")
     | c :: _ => .ok (.str (String.mk [c])))
  | .obj _ => .error (.keyError "0")
  | _ => .error (.typeError "object is not subscriptable")

/-- Python `for x in v`: the sequence of iterates (dicts yield their keys,
strings their characters). -/

def pyIter (v : JVal) : Except PyError (List JVal) :=
  match v with
  | .arr xs => .ok xs
  | .str s => .ok (s.data.map (fun c => .str (String.mk [c])))
  | .obj fs => .ok (fs.map (fun p => .str p.1))
  | _ => .error (.typeError "object is not iterable")

/-- Python `d.items()`. -/

def pyItems (v : JVal) : Except PyError (List (String × JVal)) :=
  match v with
  | .obj fs => .ok fs
  | _ => .error (.attributeError "object has no attribute items")

def upperS (s : String) : String := String.mk (s.data.map Char.toUpper)

def lowerS (s : String) : String := String.mk (s.data.map Char.toLower)

/-- Python `v.upper()` (strings only). -/

def pyUpper (v : JVal) : Except PyError String :=
  match v with
  | .str s => .ok (upperS s)
  | _ => .error (.attributeError "object has no attribute upper")

/-- Python `v.lower()` (strings only). -/

def pyLower (v : JVal) : Except PyError String :=
  match v with
  | .str s => .ok (lowerS s)
  | _ => .error (.attributeError "object has no attribute lower")

/-- Python truthiness of a decoded JSON value. -/

def pyTruthy : JVal → Bool
  | .null => false
  | .bool b => b
  | .num n => n != 0
  | .str s => !s.isEmpty
  | .arr xs => !xs.isEmpty
  | .obj fs => !fs.isEmpty

mutual

/-- Python `str(v)` for decoded JSON values. -/

def pyStr : JVal → String
  | .str s => s
  | v => pyRepr v

/-- Python `repr(v)` for decoded JSON values. -/

def pyRepr : JVal → String
  | .null => "None"
  | .bool b => if b then "True" else "False"
  | .num n => toString n
  | .str s => "\x27" ++ s ++ "\x27"
  | .arr xs => "[" ++ String.intercalate ", " (pyReprList xs) ++ "]"
  | .obj fs => "\x7b" ++ String.intercalate ", " (pyReprFields fs) ++ "\x7d"

def pyReprList : List JVal → List String
  | [] => []
  | x :: xs => pyRepr x :: pyReprList xs

def pyReprFields : List (String × JVal) → List String
  | [] => []
  | (k, v) :: fs => ("\x27" ++ k ++ "\x27: " ++ pyRepr v) :: pyReprFields fs
end

/-- Python `v[:200]`. -/

def pySlice200 (v : JVal) : Except PyError JVal :=
  match v with
  | .str s => .ok (.str (String.mk (s.data.take 200)))
  | .arr xs => .ok (.arr (xs.take 200))
  | _ => .error (.typeError "object is not subscriptable")

def asStrList : List JVal → Except PyError (List String)
  | [] => .ok []
  | .str s :: rest => do pure (s :: (← asStrList rest))
  | _ :: _ => .error (.typeError "sequence item: expected str instance")

/-- Python `sep.join(v)`. -/

def pyJoin (sep : String) (v : JVal) : Except PyError String :=
  match v with
  | .arr xs => do pure (String.intercalate sep (← asStrList xs))
  | .str s => .ok (String.intercalate sep (s.data.map (fun c => String.mk [c])))
  | .obj fs => .ok (String.intercalate sep (fs.map (fun p => p.1)))
  | _ => .error (.typeError "can only join an iterable")

def CWE_MAPPING : List (String × String) := [
  ("SQL Injection", "CWE-89"),
  ("XSS", "CWE-79"),
  ("Path Traversal", "CWE-22"),
  ("Command Injection", "CWE-78"),
  ("Insecure Deserialization", "CWE-502"),
  ("Broken Authentication", "CWE-287"),
  ("Sensitive Data Exposure", "CWE-200"),
  ("XXE", "CWE-611"),
  ("Broken Access Control", "CWE-284"),
  ("Security Misconfiguration", "CWE-16")]

def SEVERITY_MAPPING : List (String × Nat) := [
  ("CRITICAL", 5), ("HIGH", 4), ("MEDIUM", 3), ("LOW", 2), ("INFO", 1)]

/-- The five canonical severity values (the keys of `SEVERITY_MAPPING`). -/

def canonicalSeverities : List String := SEVERITY_MAPPING.map (fun p => p.1)

/-- Model of `_map_codeql_level`: the `mapping` dict (lines 125-130). -/

def codeql_level_mapping : List (String × String) :=
  [("error", "HIGH"), ("warning", "MEDIUM"), ("note", "LOW"), ("none", "INFO")]

/-- Model of `_map_codeql_level` (lines 123-131): `mapping.get(level.lower(), "MEDIUM")`. -/

def map_codeql_level (level : JVal) : Except PyError String := do
  let l ← pyLower level
  pure (((codeql_level_mapping.find? (fun p => p.1 = l)).map (fun p => p.2)).getD "MEDIUM")

/-- Model of `_map_zap_risk`: the `mapping` dict (lines 331-336). -/

def zap_risk_mapping : List (String × String) :=
  [("3", "HIGH"), ("2", "MEDIUM"), ("1", "LOW"), ("0", "INFO")]

/-- Model of `_map_zap_risk` (lines 329-337): `mapping.get(str(risk_code), "MEDIUM")`. -/

def map_zap_risk (risk_code : JVal) : String :=
  ((zap_risk_mapping.find? (fun p => p.1 = pyStr risk_code)).map (fun p => p.2)).getD "MEDIUM"

/-- Try the regex `CWE-(\d+)` (IGNORECASE) at the head of `cs`:
returns the digits of group 1. -/

def matchCweAt (cs : List Char) : Option (List Char) :=
  match cs with
  | c1 :: c2 :: c3 :: c4 :: rest =>
    if c1.toLower = 'c' ∧ c2.toLower = 'w' ∧ c3.toLower = 'e' ∧ c4 = '-' then
      let ds := rest.takeWhile Char.isDigit
      if ds.isEmpty then none else some ds
    else none
  | _ => none

/-- Model of `re.search(r'CWE-(\d+)', _, re.IGNORECASE)`: earliest match wins. -/

def searchCwe : List Char → Option (List Char)
  | [] => none
  | c :: rest =>
    match matchCweAt (c :: rest) with
    | some ds => some ds
    | none => searchCwe rest

/-- Model of `_extract_cwe` (lines 339-345). -/

def extract_cwe (check_id : JVal) : Except PyError String :=
  match check_id with
  | .str s =>
    .ok (match searchCwe s.data with
         | some ds => "CWE-" ++ String.mk ds
         | none => "CWE-Unknown")
  | _ => .error (.typeError "expected string or bytes-like object")

/-- Try the regex `cwe-?(\d+)` (IGNORECASE) at the head of `cs`. -/

def matchCweOptDashAt (cs : List Char) : Option (List Char) :=
  match cs with
  | c1 :: c2 :: c3 :: rest =>
    if c1.toLower = 'c' ∧ c2.toLower = 'w' ∧ c3.toLower = 'e' then
      match rest with
      | '-' :: rest2 =>
        let ds := rest2.takeWhile Char.isDigit
        if ds.isEmpty then none else some ds
      | _ =>
        let ds := rest.takeWhile Char.isDigit
        if ds.isEmpty then none else some ds
    else none
  | _ => none

/-- Model of `re.search(r'cwe-?(\d+)', _, re.IGNORECASE)`. -/

def searchCweOptDash : List Char → Option (List Char)
  | [] => none
  | c :: rest =>
    match matchCweOptDashAt (c :: rest) with
    | some ds => some ds
    | none => searchCweOptDash rest

/-- The tag loop of `_extract_cwe_from_codeql` (lines 139-145 and 152-157). -/

def cweFromTags : List JVal → Except PyError (Option String)
  | [] => .ok none
  | tag :: rest =>
    match tag with
    | .str s =>
      if subList "cwe".data (lowerS s).data then
        match searchCweOptDash s.data with
        | some ds => .ok (some ("CWE-" ++ String.mk ds))
        | none => cweFromTags rest
      else cweFromTags rest
    | _ => .error (.attributeError "object has no attribute lower")

/-- Model of `_extract_cwe_from_codeql` (lines 133-159). -/

def extract_cwe_from_codeql (result : JVal) : Except PyError String := do
  let properties ← dget result "properties" (.obj [])
  let tags ← dget properties "tags" (.arr [])
  let tagsL ← pyIter tags
  match ← cweFromTags tagsL with
  | some c => pure c
  | none => do
    let rule ← dget result "rule" (.obj [])
    if pyTruthy rule then do
      let rule_properties ← dget rule "properties" (.obj [])
      let rule_tags ← dget rule_properties "tags" (.arr [])
      let rtagsL ← pyIter rule_tags
      match ← cweFromTags rtagsL with
      | some c => pure c
      | none => pure "CWE-Unknown"
    else pure "CWE-Unknown"

/-- Model of `_get_codeql_recommendation` (lines 161-170). -/

def get_codeql_recommendation (result : JVal) : Except PyError String := do
  let message ← dget result "message" (.obj [])
  let textD ← dget message "text" (.str "")
  let help_text ← dget message "markdown" textD
  if pyTruthy help_text then do
    let sliced ← pySlice200 help_text
    pure ("Review and remediate: " ++ pyStr sliced)
  else pure "Review CodeQL findings and apply secure coding practices"

/-- Model of `_map_to_owasp`: the `owasp_mapping` dict, in declaration order
(lines 349-364). -/

def owasp_mapping : List (String × String) := [
  ("sql", "A03:2021 - Injection"),
  ("injection", "A03:2021 - Injection"),
  ("xss", "A03:2021 - Injection"),
  ("authentication", "A07:2021 - Identification and Authentication Failures"),
  ("session", "A07:2021 - Identification and Authentication Failures"),
  ("access", "A01:2021 - Broken Access Control"),
  ("authorization", "A01:2021 - Broken Access Control"),
  ("crypto", "A02:2021 - Cryptographic Failures"),
  ("sensitive", "A02:2021 - Cryptographic Failures"),
  ("xxe", "A05:2021 - Security Misconfiguration"),
  ("deserialization", "A08:2021 - Software and Data Integrity Failures"),
  ("component", "A06:2021 - Vulnerable and Outdated Components"),
  ("logging", "A09:2021 - Security Logging and Monitoring Failures"),
  ("ssrf", "A10:2021 - Server-Side Request Forgery")]

/-- Model of `_map_to_owasp` on a string (lines 347-371): first key, in declaration
order, contained in the lowercased input wins; default `A04`. -/

def mapToOwaspStr (vulnerability_type : String) : String :=
  match owasp_mapping.find? (fun p => subList p.1.data (lowerS vulnerability_type).data) with
  | some p => p.2
  | none => "A04:2021 - Insecure Design"

/-- Model of `_map_to_owasp` on a decoded JSON value (`.lower()` raises unless the
argument is a string). -/

def mapToOwasp (v : JVal) : Except PyError String :=
  match v with
  | .str s => .ok (mapToOwaspStr s)
  | _ => .error (.attributeError "object has no attribute lower")

/-- A `for` loop appending one record per item: an exception mid-item keeps
the records appended so far and aborts the loop. -/

def collectPartial {α : Type} (f : α → Except PyError JVal) :
    List α → List JVal × Option PyError
  | [] => ([], none)
  | x :: xs =>
    match f x with
    | .error e => ([], some e)
    | .ok r =>
      let (rs, err) := collectPartial f xs
      (r :: rs, err)

/-- A `for` loop whose body may itself append several records (nested loops):
the first exception aborts, keeping everything appended before it. -/

def collectPartialF {α : Type} (f : α → List JVal × Option PyError) :
    List α → List JVal × Option PyError
  | [] => ([], none)
  | x :: xs =>
    match f x with
    | (rs, some e) => (rs, some e)
    | (rs, none) =>
      let (rs2, err) := collectPartialF f xs
      (rs ++ rs2, err)

/-- Loop body variant for `_parse_codeql_sarif`, whose `continue` on empty
locations produces no record without failing. -/

def collectPartialOpt (f : JVal → Except PyError (Option JVal)) :
    List JVal → List JVal × Option PyError
  | [] => ([], none)
  | x :: xs =>
    match f x with
    | .error e => ([], some e)
    | .ok none => collectPartialOpt f xs
    | .ok (some r) =>
      let (rs, err) := collectPartialOpt f xs
      (r :: rs, err)

def isArr : JVal → Bool
  | .arr _ => true
  | _ => false

/-- The record built for one Semgrep result (lines 177-191). -/

def semgrepRec (result : JVal) : Except PyError JVal := do
  let title ← dget result "check_id" (.str "Unknown")
  let extra ← dget result "extra" (.obj [])
  let sevRaw ← dget extra "severity" (.str "MEDIUM")
  let severity ← pyUpper sevRaw
  let description ← dget extra "message" (.str "")
  let file ← dget result "path" (.str "")
  let start ← dget result "start" (.obj [])
  let line ← dget start "line" (.num 0)
  let snippet ← dget extra "lines" (.str "")
  let checkForCwe ← dget result "check_id" (.str "")
  let cwe ← extract_cwe checkForCwe
  let checkForOwasp ← dget result "check_id" (.str "")
  let owasp ← mapToOwasp checkForOwasp
  let recommendation ← dget extra "fix" (.str "Review and remediate")
  pure (.obj [("tool", .str "Semgrep"), ("type", .str "SAST"), ("title", title),
    ("severity", .str severity), ("description", description), ("file", file),
    ("line", line), ("code_snippet", snippet), ("cwe", .str cwe),
    ("owasp", .str owasp), ("recommendation", recommendation)])

/-- Model of `_parse_semgrep` (lines 172-191). -/

def parse_semgrep (content : String) : List JVal × Option PyError :=
  match loads content with
  | none => ([], some (.jsonDecodeError "Expecting value"))
  | some data =>
    match dget data "results" (.arr []) with
    | .error e => ([], some e)
    | .ok results =>
      match pyIter results with
      | .error e => ([], some e)
      | .ok rs => collectPartial semgrepRec rs

/-- The record built for one NodeJsScan finding (lines 199-213). -/

def nodejsscanRec (category : String) (finding : JVal) : Except PyError JVal := do
  let title ← dget finding "title" (.str category)
  let sevRaw ← dget finding "severity" (.str "MEDIUM")
  let severity ← pyUpper sevRaw
  let description ← dget finding "description" (.str "")
  let file ← dget finding "path" (.str "")
  let line ← dget finding "line" (.num 0)
  let snippet ← dget finding "code" (.str "")
  let cwe := ((CWE_MAPPING.find? (fun p => p.1 = category)).map (fun p => p.2)).getD
    "CWE-Unknown"
  let owasp := mapToOwaspStr category
  let recommendation ← dget finding "solution" (.str "")
  pure (.obj [("tool", .str "NodeJsScan"), ("type", .str "SAST"), ("title", title),
    ("severity", .str severity), ("description", description), ("file", file),
    ("line", line), ("code_snippet", snippet), ("cwe", .str cwe),
    ("owasp", .str owasp), ("recommendation", recommendation)])

/-- Model of `_parse_nodejsscan` (lines 193-213). -/

def parse_nodejsscan (content : String) : List JVal × Option PyError :=
  match loads content with
  | none => ([], some (.jsonDecodeError "Expecting value"))
  | some data =>
    match dget data "sec_issues" (.obj []) with
    | .error e => ([], some e)
    | .ok sec =>
      match pyItems sec with
      | .error e => ([], some e)
      | .ok items =>
        collectPartialF (fun kv =>
          match pyIter kv.2 with
          | .error e => ([], some e)
          | .ok findings => collectPartial (nodejsscanRec kv.1) findings) items

/-- The record built for one Bandit result (lines 220-234): note the raw
`issue_cwe.id` value stored in `cwe`. -/

def banditRec (result : JVal) : Except PyError JVal := do
  let title ← dget result "test_name" (.str "Unknown")
  let sevRaw ← dget result "issue_severity" (.str "MEDIUM")
  let severity ← pyUpper sevRaw
  let description ← dget result "issue_text" (.str "")
  let file ← dget result "filename" (.str "")
  let line ← dget result "line_number" (.num 0)
  let snippet ← dget result "code" (.str "")
  let issue_cwe ← dget result "issue_cwe" (.obj [])
  let cwe ← dget issue_cwe "id" (.str "")
  let testName ← dget result "test_name" (.str "")
  let owasp ← mapToOwasp testName
  pure (.obj [("tool", .str "Bandit"), ("type", .str "SAST"), ("title", title),
    ("severity", .str severity), ("description", description), ("file", file),
    ("line", line), ("code_snippet", snippet), ("cwe", cwe),
    ("owasp", .str owasp), ("recommendation", .str "Review security best practices")])

/-- Model of `_parse_bandit` (lines 215-234). -/

def parse_bandit (content : String) : List JVal × Option PyError :=
  match loads content with
  | none => ([], some (.jsonDecodeError "Expecting value"))
  | some data =>
    match dget data "results" (.arr []) with
    | .error e => ([], some e)
    | .ok results =>
      match pyIter results with
      | .error e => ([], some e)
      | .ok rs => collectPartial banditRec rs

/-- The `description` expression of the npm-audit record (line 247):
`vuln_data.get("via", [...])[0].get("title", "") if isinstance(...) else ""`. -/

def npmDescription (vuln_data : JVal) : Except PyError JVal := do
  let viaCheck ← dget vuln_data "via" .null
  if isArr viaCheck then do
    let via ← dget vuln_data "via" (.arr [.obj []])
    let first ← pyIndexZero via
    dget first "title" (.str "")
  else pure (.str "")

/-- The record built for one npm-audit entry (lines 241-255): `cwe` is
always the empty string. -/

def npmRec (kv : String × JVal) : Except PyError JVal := do
  let vuln_data := kv.2
  let title ← dget vuln_data "name" (.str kv.1)
  let sevRaw ← dget vuln_data "severity" (.str "medium")
  let severity ← pyUpper sevRaw
  let description ← npmDescription vuln_data
  let package ← dget vuln_data "name" (.str "")
  let version ← dget vuln_data "range" (.str "")
  let fixA ← dget vuln_data "fixAvailable" (.obj [])
  let fixed_in ← dget fixA "version" (.str "")
  let fixB ← dget vuln_data "fixAvailable" (.obj [])
  let fixV ← dget fixB "version" (.str "latest")
  let recommendation := "Update to version " ++ pyStr fixV
  pure (.obj [("tool", .str "npm audit"), ("type", .str "SCA"), ("title", title),
    ("severity", .str severity), ("description", description),
    ("package", package), ("version", version), ("fixed_in", fixed_in),
    ("cwe", .str ""), ("owasp", .str "A06:2021 - Vulnerable Components"),
    ("recommendation", .str recommendation)])

/-- Model of `_parse_npm_audit` (lines 236-255). -/

def parse_npm_audit (content : String) : List JVal × Option PyError :=
  match loads content with
  | none => ([], some (.jsonDecodeError "Expecting value"))
  | some data =>
    match dget data "vulnerabilities" (.obj []) with
    | .error e => ([], some e)
    | .ok vs =>
      match pyItems vs with
      | .error e => ([], some e)
      | .ok items => collectPartial npmRec items

/-- The `description` expression of the Snyk record (line 275). -/

def snykDescription (vuln : JVal) : Except PyError JVal := do
  let descCheck ← dget vuln "description" .null
  if pyTruthy descCheck then do
    let d ← dget vuln "description" (.str "")
    pySlice200 d
  else pure (.str "")

/-- The `cwe` expression of the Snyk record (line 279). -/

def snykCwe (vuln : JVal) : Except PyError JVal := do
  let identCheck ← dget vuln "identifiers" .null
  if pyTruthy identCheck then do
    let idents ← dget vuln "identifiers" (.obj [])
    let cweList ← dget idents "CWE" (.arr [.str ""])
    pyIndexZero cweList
  else pure (.str "")

/-- The `recommendation` expression of the Snyk record (line 282). -/

def snykRecommendation (vuln : JVal) : Except PyError String := do
  let fixCheck ← dget vuln "fixedIn" .null
  if pyTruthy fixCheck then do
    let fl ← dget vuln "fixedIn" (.arr [.str "latest"])
    let joined ← pyJoin ", " fl
    pure ("Upgrade to " ++ joined)
  else pure "Review Snyk recommendations"

/-- The record built for one Snyk vulnerability (lines 269-285). -/

def snykRec (project_name : JVal) (vuln : JVal) : Except PyError JVal := do
  let idD ← dget vuln "id" (.str "")
  let title ← dget vuln "title" idD
  let sevRaw ← dget vuln "severity" (.str "medium")
  let severity ← pyUpper sevRaw
  let description ← snykDescription vuln
  let modD ← dget vuln "moduleName" (.str "")
  let package ← dget vuln "packageName" modD
  let version ← dget vuln "version" (.str "")
  let fixed_in ← dget vuln "fixedIn" (.arr [])
  let cwe ← snykCwe vuln
  let cvss ← dget vuln "cvssScore" (.num 0)
  let recommendation ← snykRecommendation vuln
  pure (.obj [("tool", .str "Snyk"), ("type", .str "SCA"), ("title", title),
    ("severity", .str severity), ("description", description),
    ("package", package), ("version", version), ("fixed_in", fixed_in),
    ("cwe", cwe), ("cvss_score", cvss),
    ("owasp", .str "A06:2021 - Vulnerable Components"),
    ("recommendation", .str recommendation), ("project", project_name)])

/-- Model of `_parse_snyk` (lines 257-285). -/

def parse_snyk (content : String) : List JVal × Option PyError :=
  match loads content with
  | none => ([], some (.jsonDecodeError "Expecting value"))
  | some data =>
    let projects := match data with
      | .arr xs => xs
      | _ => [data]
    collectPartialF (fun project =>
      match dget project "projectName" (.str "unknown") with
      | .error e => ([], some e)
      | .ok project_name =>
        match dget project "vulnerabilities" (.arr []) with
        | .error e => ([], some e)
        | .ok vulns =>
          match pyIter vulns with
          | .error e => ([], some e)
          | .ok vl => collectPartial (snykRec project_name) vl) projects

/-- The record built for one ZAP JSON alert (lines 294-307): note
`alert.get("instances", [\x7b\x7d])[0]`, evaluated once per url / method /
param field. -/

def zapJsonRec (alert : JVal) : Except PyError JVal := do
  let title ← dget alert "name" (.str "Unknown")
  let risk ← dget alert "riskcode" (.str "0")
  let severity := map_zap_risk risk
  let description ← dget alert "desc" (.str "")
  let instA ← dget alert "instances" (.arr [.obj []])
  let firstA ← pyIndexZero instA
  let url ← dget firstA "uri" (.str "")
  let instB ← dget alert "instances" (.arr [.obj []])
  let firstB ← pyIndexZero instB
  let method ← dget firstB "method" (.str "")
  let instC ← dget alert "instances" (.arr [.obj []])
  let firstC ← pyIndexZero instC
  let param ← dget firstC "param" (.str "")
  let cweid ← dget alert "cweid" (.str "Unknown")
  let cwe := "CWE-" ++ pyStr cweid
  let nm ← dget alert "name" (.str "Unknown")
  let owasp ← mapToOwasp nm
  let recommendation ← dget alert "solution" (.str "")
  pure (.obj [("tool", .str "OWASP ZAP"), ("type", .str "DAST"), ("title", title),
    ("severity", .str severity), ("description", description), ("url", url),
    ("method", method), ("param", param), ("cwe", .str cwe),
    ("owasp", .str owasp), ("recommendation", recommendation)])

/-- Model of `_parse_zap_json` (lines 287-307). -/

def parse_zap_json (content : String) : List JVal × Option PyError :=
  match loads content with
  | none => ([], some (.jsonDecodeError "Expecting value"))
  | some data =>
    match dget data "site" (.arr []) with
    | .error e => ([], some e)
    | .ok sites =>
      match pyIter sites with
      | .error e => ([], some e)
      | .ok sitesL =>
        collectPartialF (fun site =>
          match dget site "alerts" (.arr []) with
          | .error e => ([], some e)
          | .ok alerts =>
            match pyIter alerts with
            | .error e => ([], some e)
            | .ok alertsL => collectPartial zapJsonRec alertsL) sitesL

/-- The record built for one CodeQL SARIF result (lines 86-114), `none`
when the result has no (truthy) locations (`continue`, lines 88-90). -/

def codeqlRec (result : JVal) : Except PyError (Option JVal) := do
  let locations ← dget result "locations" (.arr [])
  if !pyTruthy locations then pure none
  else do
    let loc0 ← pyIndexZero locations
    let location ← dget loc0 "physicalLocation" (.obj [])
    let artifact_location ← dget location "artifactLocation" (.obj [])
    let region ← dget location "region" (.obj [])
    let rule_id ← dget result "ruleId" (.str "Unknown")
    let msgObj ← dget result "message" (.obj [])
    let message ← dget msgObj "text" (.str "")
    let level ← dget result "level" (.str "warning")
    let severity ← map_codeql_level level
    let file ← dget artifact_location "uri" (.str "")
    let line ← dget region "startLine" (.num 0)
    let snippetO ← dget region "snippet" (.obj [])
    let snippet ← dget snippetO "text" (.str "")
    let cwe ← extract_cwe_from_codeql result
    let owasp ← mapToOwasp rule_id
    let recommendation ← get_codeql_recommendation result
    pure (some (.obj [("tool", .str "CodeQL"), ("type", .str "SAST"),
      ("title", rule_id), ("severity", .str severity), ("description", message),
      ("file", file), ("line", line), ("code_snippet", snippet), ("cwe", .str cwe),
      ("owasp", .str owasp), ("recommendation", .str recommendation)]))

/-- The body of `_parse_codeql_sarif` before its own `except` clause
(lines 79-116). -/

def parse_codeql_body (content : String) : List JVal × Option PyError :=
  match loads content with
  | none => ([], some (.jsonDecodeError "Expecting value"))
  | some data =>
    match dget data "runs" (.arr []) with
    | .error e => ([], some e)
    | .ok runs =>
      match pyIter runs with
      | .error e => ([], some e)
      | .ok runsL =>
        collectPartialF (fun run =>
          match (do
            let tool ← dget run "tool" (.obj [])
            let driver ← dget tool "driver" (.obj [])
            dget driver "name" (.str "CodeQL")) with
          | .error e => ([], some e)
          | .ok _ =>
            match dget run "results" (.arr []) with
            | .error e => ([], some e)
            | .ok results =>
              match pyIter results with
              | .error e => ([], some e)
              | .ok rl => collectPartialOpt codeqlRec rl) runsL

/-- Model of `_parse_codeql_sarif` (lines 77-121): its internal `try`/`except`
swallows any exception, so the caller never sees one. -/

def parse_codeql_sarif (content : String) : List JVal × Option PyError :=
  ((parse_codeql_body content).1, none)

inductive XmlNode where
  | elem (tag : String) (text : Option String) (children : List XmlNode)

def XmlNode.tag : XmlNode → String
  | .elem t _ _ => t

def XmlNode.text : XmlNode → Option String
  | .elem _ tx _ => tx

def XmlNode.children : XmlNode → List XmlNode
  | .elem _ _ cs => cs

mutual

/-- Model of `node.findall(".//tag")`: matching descendants in document order. -/

def findallDesc (tag : String) : XmlNode → List XmlNode
  | .elem _ _ children => findallDescL tag children

def findallDescL (tag : String) : List XmlNode → List XmlNode
  | [] => []
  | c :: rest =>
    (if c.tag = tag then [c] else []) ++ findallDesc tag c ++ findallDescL tag rest
end

/-- Model of `node.find(tag)`: first direct child with the tag. -/

def xFindChild (n : XmlNode) (tag : String) : Option XmlNode :=
  n.children.find? (fun c => c.tag = tag)

def xmlNameChars (c : Char) : Bool :=
  c.isAlphanum || c = '_' || c = '-' || c = ':' || c = '.'

mutual

/-- One XML element, starting right after its `<`. -/

def parseXElem (fuel : Nat) (cs : List Char) : Option (XmlNode × List Char) :=
  match fuel with
  | 0 => none
  | fuel + 1 =>
    let nm := cs.takeWhile xmlNameChars
    let rest := cs.dropWhile xmlNameChars
    if nm.isEmpty then none
    else
      match rest.dropWhile (fun c => c ≠ '>' ∧ c ≠ '/') with
      | '/' :: '>' :: rest2 => some (.elem (String.mk nm) none [], rest2)
      | '>' :: rest2 =>
        let txt := rest2.takeWhile (fun c => c ≠ '<')
        let restT := rest2.dropWhile (fun c => c ≠ '<')
        (match parseXChildren fuel restT with
         | some (children, restC) =>
           (match restC with
            | '<' :: '/' :: restC2 =>
              let nm2 := restC2.takeWhile xmlNameChars
              let restC3 := restC2.dropWhile xmlNameChars
              if nm2 = nm then
                match restC3 with
                | '>' :: restC4 =>
                  some (.elem (String.mk nm)
                    (if txt.isEmpty then none else some (String.mk txt)) children, restC4)
                | _ => none
              else none
            | _ => none)
         | none => none)
      | _ => none

/-- Sibling elements up to (excluding) the parent closing tag; the input
starts at a `<`. -/

def parseXChildren (fuel : Nat) (cs : List Char) : Option (List XmlNode × List Char) :=
  match fuel with
  | 0 => none
  | fuel + 1 =>
    match cs with
    | '<' :: '/' :: _ => some ([], cs)
    | '<' :: rest =>
      (match parseXElem fuel rest with
       | some (child, rest2) =>
         let rest3 := rest2.dropWhile (fun c => c ≠ '<')
         (match parseXChildren fuel rest3 with
          | some (sibs, rest4) => some (child :: sibs, rest4)
          | none => none)
       | none => none)
    | _ => none
end

def dropPastPrologEnd : List Char → List Char
  | [] => []
  | '?' :: '>' :: rest => rest
  | _ :: rest => dropPastPrologEnd rest

/-- Model of `ET.parse`: optional `<?xml ...?>` prolog, one document
element, trailing whitespace. -/

def et_parse (content : String) : Except PyError XmlNode :=
  let cs0 := content.data.dropWhile isPyStripWs
  let cs := if ("<?".data).isPrefixOf cs0 then dropPastPrologEnd cs0 else cs0
  match cs.dropWhile isPyStripWs with
  | '<' :: rest =>
    (match parseXElem (content.length + 1) rest with
     | some (root, restF) =>
       if (restF.dropWhile isPyStripWs).isEmpty then .ok root
       else .error (.xmlParseError "junk after document element")
     | none => .error (.xmlParseError "not well-formed"))
  | _ => .error (.xmlParseError "malformed document")

/-- Model of `el.text` as the Python value handed on (`None` ↦ `null`). -/

def xTextVal (el : XmlNode) : JVal :=
  match el.text with
  | some t => .str t
  | none => .null

/-- Model of `alert.find(tag).text if alert.find(tag) is not None else dflt`. -/

def xTextOr (n : XmlNode) (tag : String) (dflt : JVal) : JVal :=
  match xFindChild n tag with
  | some el => xTextVal el
  | none => dflt

/-- The record built for one ZAP XML alert item (lines 316-327). -/

def zapXmlRec (alert : XmlNode) : Except PyError JVal := do
  let title := xTextOr alert "name" (.str "Unknown")
  let severity := map_zap_risk (xTextOr alert "riskcode" (.str "0"))
  let description := xTextOr alert "desc" (.str "")
  let url := xTextOr alert "uri" (.str "")
  let cwe : JVal :=
    match xFindChild alert "cweid" with
    | some el => .str ("CWE-" ++ pyStr (xTextVal el))
    | none => .str "CWE-Unknown"
  let owasp ← mapToOwasp (xTextOr alert "name" (.str ""))
  let recommendation := xTextOr alert "solution" (.str "")
  pure (.obj [("tool", .str "OWASP ZAP"), ("type", .str "DAST"), ("title", title),
    ("severity", .str severity), ("description", description), ("url", url),
    ("cwe", cwe), ("owasp", .str owasp), ("recommendation", recommendation)])

/-- Model of `_parse_zap_xml` (lines 309-327). -/

def parse_zap_xml (content : String) : List JVal × Option PyError :=
  match et_parse content with
  | .error e => ([], some e)
  | .ok root =>
    collectPartialF
      (fun site => collectPartial zapXmlRec (findallDesc "alertitem" site))
      (findallDesc "site" root)

/-- One file of the input directory: its name and its raw text content. -/

structure RFile where
  name : String
  content : String

/-- Model of `pathlib.Path(name).suffix`. -/

def pySuffix (name : String) : String :=
  let cs := name.data
  match cs.reverse.findIdx? (fun c => c = '.') with
  | none => ""
  | some j =>
    let i := cs.length - 1 - j
    if 0 < i ∧ i < cs.length - 1 then String.mk (cs.drop i) else ""

/-- Model of `pat in report_file.name`. -/

def inName (pat : String) (f : RFile) : Bool := subList pat.data f.name.data

/-- The filename dispatch of `parse_all` (lines 54-70), with the records the
chosen extractor appended and the exception, if any, that the surrounding
`try`/`except` catches.  A file matching no signature contributes nothing. -/

def dispatch (f : RFile) : List JVal × Option PyError :=
  if inName "codeql" f ∧ pySuffix f.name = ".sarif" then parse_codeql_sarif f.content
  else if inName "semgrep" f then parse_semgrep f.content
  else if inName "nodejsscan" f then parse_nodejsscan f.content
  else if inName "bandit" f then parse_bandit f.content
  else if inName "npm_audit" f then parse_npm_audit f.content
  else if inName "snyk" f then parse_snyk f.content
  else if inName "zap" f then
    if pySuffix f.name = ".json" then parse_zap_json f.content
    else if pySuffix f.name = ".xml" then parse_zap_xml f.content
    else ([], none)
  else ([], none)

/-- Model of `parse_all` (lines 48-75): every file is processed inside `try`/`except`,
so each contributes exactly the records its extractor appended before
finishing or failing; `acc` is `self.vulnerabilities`. -/

def parse_all (files : List RFile) (acc : List JVal) : List JVal :=
  match files with
  | f :: fs => parse_all fs (acc ++ (dispatch f).1)
  | [] => acc

/-- Model of `counts[k] = counts.get(k, 0) + 1` on a Python dict. -/

def dincr (m : List (JVal × Nat)) (k : JVal) : List (JVal × Nat) :=
  match m with
  | [] => [(k, 1)]
  | (k2, n) :: rest =>
    if JVal.beq k2 k then (k2, n + 1) :: rest else (k2, n) :: dincr rest k

/-- The counting loop shared by `_count_by_severity` / `_count_by_type` /
`_count_by_tool` (lines 392-414): each record contributes 1 to the bucket
`vuln.get(key, "UNKNOWN")`. -/

def countByAux (key : String) (m : List (JVal × Nat)) :
    List JVal → Except PyError (List (JVal × Nat))
  | [] => .ok m
  | v :: vs => do
    let k ← dget v key (.str "UNKNOWN")
    countByAux key (dincr m k) vs

def count_by_severity (vulns : List JVal) := countByAux "severity" [] vulns

def count_by_type (vulns : List JVal) := countByAux "type" [] vulns

def count_by_tool (vulns : List JVal) := countByAux "tool" [] vulns

/-- The `metadata` object written by `save_results` (lines 377-383). -/

structure Metadata where
  total_vulnerabilities : Nat
  by_severity : List (JVal × Nat)
  by_type : List (JVal × Nat)
  by_tool : List (JVal × Nat)

/-- Model of `save_results` (lines 373-390): all four aggregates are recomputed from
the final record sequence. -/

def save_results (vulns : List JVal) : Except PyError Metadata := do
  let bySev ← count_by_severity vulns
  let byType ← count_by_type vulns
  let byTool ← count_by_tool vulns
  pure { total_vulnerabilities := vulns.length, by_severity := bySev,
         by_type := byType, by_tool := byTool }

/-- Sum of the bucket counts of one aggregate. -/

def sumCounts (m : List (JVal × Nat)) : Nat := (m.map (fun p => p.2)).sum

/-- Field lookup in a record (`.obj`) value. -/

def getField (v : JVal) (key : String) : Option JVal :=
  match v with
  | .obj fs => (fs.find? (fun p => p.1 = key)).map (fun p => p.2)
  | _ => none

/-- The value set of the `owasp` field over all extractors: the ten strings
`_map_to_owasp` can return (nine mapping values plus the `A04` default) and
the constant the npm-audit / Snyk extractors hardcode. -/

def owaspCategories : List String := [
  "A03:2021 - Injection",
  "A07:2021 - Identification and Authentication Failures",
  "A01:2021 - Broken Access Control",
  "A02:2021 - Cryptographic Failures",
  "A05:2021 - Security Misconfiguration",
  "A08:2021 - Software and Data Integrity Failures",
  "A06:2021 - Vulnerable and Outdated Components",
  "A09:2021 - Security Logging and Monitoring Failures",
  "A10:2021 - Server-Side Request Forgery",
  "A04:2021 - Insecure Design",
  "A06:2021 - Vulnerable Components"]

/-- The pattern `^CWE-(\d+|Unknown)$`. -/

def matchesCwePattern (s : String) : Bool :=
  s = "CWE-Unknown" ||
  (("CWE-".data).isPrefixOf s.data &&
    (!(s.data.drop 4).isEmpty && (s.data.drop 4).all Char.isDigit))

/-- A Semgrep report whose finding uses Semgrep's native severity `error`. -/

def semgrepErrorReport : String :=
  "\x7b\"results\": [\x7b\"check_id\": \"rules.detect-sqli\", \"extra\": \x7b\"severity\": \"error\"\x7d\x7d]\x7d"

/-- The record the Semgrep extractor produces for `semgrepErrorReport`. -/

def semgrepErrorRecord : JVal :=
  .obj [("tool", .str "Semgrep"), ("type", .str "SAST"),
    ("title", .str "rules.detect-sqli"), ("severity", .str "ERROR"),
    ("description", .str ""), ("file", .str ""), ("line", .num 0),
    ("code_snippet", .str ""), ("cwe", .str "CWE-Unknown"),
    ("owasp", .str "A03:2021 - Injection"),
    ("recommendation", .str "Review and remediate")]

/-- An npm-audit report with a `moderate` advisory. -/

def npmModerateReport : String :=
  "\x7b\"vulnerabilities\": \x7b\"lodash\": \x7b\"name\": \"lodash\", \"severity\": \"moderate\"\x7d\x7d\x7d"

/-- A Bandit report whose `issue_cwe.id` is the bare number 89. -/

def banditReport89 : String :=
  "\x7b\"results\": [\x7b\"test_name\": \"hardcoded_sql_expressions\", \"issue_severity\": \"MEDIUM\", \"issue_cwe\": \x7b\"id\": 89\x7d\x7d]\x7d"

/-- A well-named Semgrep report file. -/

def semgrepFile : RFile := ⟨"semgrep_report.json", semgrepErrorReport⟩

/-- A small concrete record sequence (two tools, two severities). -/

def demoVulns : List JVal :=
  [.obj [("tool", .str "Semgrep"), ("type", .str "SAST"), ("severity", .str "ERROR")],
   .obj [("tool", .str "npm audit"), ("type", .str "SCA"), ("severity", .str "MODERATE")],
   .obj [("tool", .str "Semgrep"), ("type", .str "SAST"), ("severity", .str "WARNING")]]

/-- A Bandit-named file whose content is not JSON (its parse raises). -/

def malformedBanditFile : RFile := ⟨"bandit_report.json", "not valid json"⟩

/-- A well-formed Bandit report file. -/

def banditFile : RFile := ⟨"bandit_results.json", banditReport89⟩

/-- A file matching no extractor signature. -/

def readmeFile : RFile := ⟨"README.md", "hello"⟩

/-- A ZAP JSON report: first alert lacks `instances`, second has an empty
`instances` list (raising `IndexError`), third is never reached. -/

def zapPartialReport : String :=
  "\x7b\"site\": [\x7b\"alerts\": [\x7b\"name\": \"XSS\", \"riskcode\": \"3\"\x7d, \x7b\"name\": \"SQLi\", \"riskcode\": \"3\", \"instances\": []\x7d, \x7b\"name\": \"Other\"\x7d]\x7d]\x7d"

def zapPartialFile : RFile := ⟨"zap_report.json", zapPartialReport⟩

/-- The single record the ZAP JSON extractor produces for
`zapPartialReport` before the `IndexError`. -/

def zapGoodRecord : JVal :=
  .obj [("tool", .str "OWASP ZAP"), ("type", .str "DAST"), ("title", .str "XSS"),
    ("severity", .str "HIGH"), ("description", .str ""), ("url", .str ""),
    ("method", .str ""), ("param", .str ""), ("cwe", .str "CWE-Unknown"),
    ("owasp", .str "A03:2021 - Injection"), ("recommendation", .str "")]

/-- The first alert of `zapPartialReport` (no `instances` key). -/

def alertNoInstances : JVal := .obj [("name", .str "XSS"), ("riskcode", .str "3")]

/-- The second alert of `zapPartialReport` (`instances` present but empty). -/

def alertEmptyInstances : JVal :=
  .obj [("name", .str "SQLi"), ("riskcode", .str "3"), ("instances", .arr [])]

/-- The truncated response of the recovery example:
`{"policies": [{"a":1},{"b":2},{"c":` (cut mid-object). -/

def truncatedPolicyResponse : String :=
  "\x7b\"policies\": [\x7b\"a\":1\x7d,\x7b\"b\":2\x7d,\x7b\"c\":"

/-- The C8 example object: a field whose string value contains escaped
quotes and literal braces, `{"v": "value with \"brace-like\" {text}"}`. -/

def c8obj : String :=
  "\x7b\"v\": \"value with \\\"brace-like\\\" \x7btext\x7d\"\x7d"

theorem dropSep_len : ∀ cs : List Char, (dropSep cs).length ≤ cs.length := by
  intro cs
  induction cs with
  | nil => exact Nat.le_refl _
  | cons c t ih =>
    simp only [dropSep, List.dropWhile] at *
    split
    · exact Nat.le_succ_of_le ih
    · exact Nat.le_refl _

theorem except_bind_ok {α β : Type} (x : Except PyError α) (f : α → Except PyError β)
    (b : β) : x >>= f = .ok b ↔ ∃ a, x = .ok a ∧ f a = .ok b := by
  cases x <;> simp [Bind.bind, Except.bind]

theorem except_pure_ok {α : Type} (a b : α) :
    (pure a : Except PyError α) = .ok b ↔ a = b := by
  simp only [pure, Except.pure, Except.ok.injEq]

theorem collectPartial_mem {α : Type} (f : α → Except PyError JVal) :
    ∀ (xs : List α) (v : JVal), v ∈ (collectPartial f xs).1 → ∃ x ∈ xs, f x = .ok v := by
  intro xs
  induction xs with
  | nil => intro v hv; simp [collectPartial] at hv
  | cons x xs ih =>
    intro v hv
    simp only [collectPartial] at hv
    cases hfx : f x with
    | error e => rw [hfx] at hv; simp at hv
    | ok r =>
      rw [hfx] at hv
      simp only [List.mem_cons] at hv
      rcases hv with rfl | hv
      · exact ⟨x, List.mem_cons_self _ _, hfx⟩
      · obtain ⟨y, hy, hfy⟩ := ih v hv
        exact ⟨y, List.mem_cons_of_mem _ hy, hfy⟩

theorem collectPartialF_mem {α : Type} (f : α → List JVal × Option PyError) :
    ∀ (xs : List α) (v : JVal), v ∈ (collectPartialF f xs).1 → ∃ x ∈ xs, v ∈ (f x).1 := by
  intro xs
  induction xs with
  | nil => intro v hv; simp [collectPartialF] at hv
  | cons x xs ih =>
    intro v hv
    simp only [collectPartialF] at hv
    cases hfx : f x with
    | mk rs err =>
      rw [hfx] at hv
      cases err with
      | some e =>
        simp only at hv
        exact ⟨x, List.mem_cons_self _ _, by rw [hfx]; exact hv⟩
      | none =>
        simp only [List.mem_append] at hv
        rcases hv with hv | hv
        · exact ⟨x, List.mem_cons_self _ _, by rw [hfx]; exact hv⟩
        · obtain ⟨y, hy, hfy⟩ := ih v hv
          exact ⟨y, List.mem_cons_of_mem _ hy, hfy⟩

theorem collectPartialOpt_mem (f : JVal → Except PyError (Option JVal)) :
    ∀ (xs : List JVal) (v : JVal),
      v ∈ (collectPartialOpt f xs).1 → ∃ x ∈ xs, f x = .ok (some v) := by
  intro xs
  induction xs with
  | nil => intro v hv; simp [collectPartialOpt] at hv
  | cons x xs ih =>
    intro v hv
    simp only [collectPartialOpt] at hv
    cases hfx : f x with
    | error e => rw [hfx] at hv; simp at hv
    | ok r =>
      rw [hfx] at hv
      cases r with
      | none =>
        obtain ⟨y, hy, hfy⟩ := ih v hv
        exact ⟨y, List.mem_cons_of_mem _ hy, hfy⟩
      | some r =>
        simp only [List.mem_cons] at hv
        rcases hv with rfl | hv
        · exact ⟨x, List.mem_cons_self _ _, hfx⟩
        · obtain ⟨y, hy, hfy⟩ := ih v hv
          exact ⟨y, List.mem_cons_of_mem _ hy, hfy⟩

theorem find_map_getD_mem {β : Type} (l : List (String × β)) (p : String × β → Bool)
    (d : β) (target : List β) (hd : d ∈ target) (hall : ∀ q ∈ l, q.2 ∈ target) :
    (((l.find? p).map (fun q => q.2)).getD d) ∈ target := by
  cases hf : l.find? p with
  | none => exact hd
  | some q => exact hall q (List.mem_of_find?_eq_some hf)

theorem mapToOwaspStr_mem (s : String) : mapToOwaspStr s ∈ owaspCategories := by
  unfold mapToOwaspStr
  cases hf : owasp_mapping.find? (fun p => subList p.1.data (lowerS s).data) with
  | none => decide
  | some p =>
    have hall : ∀ q ∈ owasp_mapping, q.2 ∈ owaspCategories := by decide
    exact hall p (List.mem_of_find?_eq_some hf)

theorem mapToOwasp_ok_mem (v : JVal) (o : String) (h : mapToOwasp v = .ok o) :
    o ∈ owaspCategories := by
  cases v with
  | str s =>
    simp only [mapToOwasp, Except.ok.injEq] at h
    exact h ▸ mapToOwaspStr_mem s
  | null => exact Except.noConfusion h
  | bool b => exact Except.noConfusion h
  | num n => exact Except.noConfusion h
  | arr xs => exact Except.noConfusion h
  | obj fs => exact Except.noConfusion h

theorem map_zap_risk_mem (rc : JVal) : map_zap_risk rc ∈ canonicalSeverities := by
  unfold map_zap_risk
  exact find_map_getD_mem zap_risk_mapping (fun p => p.1 = pyStr rc)
    "MEDIUM" canonicalSeverities (by decide) (by decide)

theorem map_codeql_level_ok_mem (l : JVal) (s : String)
    (h : map_codeql_level l = .ok s) : s ∈ canonicalSeverities := by
  unfold map_codeql_level at h
  rw [except_bind_ok] at h
  obtain ⟨a, _, h2⟩ := h
  rw [except_pure_ok] at h2
  subst h2
  exact find_map_getD_mem codeql_level_mapping (fun p => p.1 = a)
    "MEDIUM" canonicalSeverities (by decide) (by decide)

theorem matchCweAt_ok (cs ds : List Char) (h : matchCweAt cs = some ds) :
    ds ≠ [] ∧ ds.all Char.isDigit = true := by
  unfold matchCweAt at h
  split at h
  · split at h
    · dsimp only at h
      split at h
      · exact Option.noConfusion h
      · injection h with h
        subst h
        refine ⟨?_, List.all_takeWhile⟩
        simp_all [List.isEmpty_iff]
    · exact Option.noConfusion h
  · exact Option.noConfusion h

theorem searchCwe_ok (cs ds : List Char) (h : searchCwe cs = some ds) :
    ds ≠ [] ∧ ds.all Char.isDigit = true := by
  induction cs with
  | nil => exact Option.noConfusion h
  | cons c rest ih =>
    rw [searchCwe] at h
    cases hm : matchCweAt (c :: rest) with
    | some ds2 =>
      rw [hm] at h
      injection h with h
      subst h
      exact matchCweAt_ok _ _ hm
    | none =>
      rw [hm] at h
      exact ih h

theorem cwe_concat_pattern (ds : List Char) (hne : ds ≠ [])
    (hdig : ds.all Char.isDigit = true) :
    matchesCwePattern ("CWE-" ++ String.mk ds) = true := by
  have hdata : ("CWE-" ++ String.mk ds).data = 'C' :: 'W' :: 'E' :: '-' :: ds := rfl
  unfold matchesCwePattern
  rw [hdata]
  simp only [List.isPrefixOf, List.drop, Bool.or_eq_true, Bool.and_eq_true]
  right
  refine ⟨?_, ?_, ?_⟩
  · simp [List.isPrefixOf]
  · simp [List.isEmpty_iff, hne]
  · exact hdig

theorem extract_cwe_ok (x : JVal) (s : String) (h : extract_cwe x = .ok s) :
    matchesCwePattern s = true := by
  cases x with
  | str s0 =>
    simp only [extract_cwe, Except.ok.injEq] at h
    cases hs : searchCwe s0.data with
    | none => rw [hs] at h; subst h; decide
    | some ds =>
      rw [hs] at h
      subst h
      obtain ⟨hne, hdig⟩ := searchCwe_ok _ _ hs
      exact cwe_concat_pattern ds hne hdig
  | null => exact Except.noConfusion h
  | bool b => exact Except.noConfusion h
  | num n => exact Except.noConfusion h
  | arr xs => exact Except.noConfusion h
  | obj fs => exact Except.noConfusion h

theorem pyUpper_ok (v : JVal) (s : String) (h : pyUpper v = .ok s) :
    ∃ t, s = upperS t := by
  cases v with
  | str t =>
    simp only [pyUpper, Except.ok.injEq] at h
    exact ⟨t, h.symm⟩
  | null => exact Except.noConfusion h
  | bool b => exact Except.noConfusion h
  | num n => exact Except.noConfusion h
  | arr xs => exact Except.noConfusion h
  | obj fs => exact Except.noConfusion h

theorem semgrepRec_fields (x v : JVal) (h : semgrepRec x = .ok v) :
    (∃ s, getField v "severity" = some (.str (upperS s)))
  ∧ (∃ cw, getField v "cwe" = some (.str cw) ∧ matchesCwePattern cw = true)
  ∧ (∃ o, getField v "owasp" = some (.str o) ∧ o ∈ owaspCategories) := by
  unfold semgrepRec at h
  simp only [except_bind_ok] at h
  obtain ⟨title, -, extra, -, sevRaw, -, sev, hsev, desc, -, file, -, start, -, line, -,
    snip, -, ck, -, cw, hcw, ck2, -, ow, how, rec, -, hpure⟩ := h
  rw [except_pure_ok] at hpure
  subst hpure
  refine ⟨?_, ?_, ?_⟩
  · obtain ⟨t, rfl⟩ := pyUpper_ok _ _ hsev
    exact ⟨t, rfl⟩
  · exact ⟨cw, rfl, extract_cwe_ok _ _ hcw⟩
  · exact ⟨ow, rfl, mapToOwasp_ok_mem _ _ how⟩

theorem banditRec_fields (x v : JVal) (h : banditRec x = .ok v) :
    (∃ s, getField v "severity" = some (.str (upperS s)))
  ∧ (∃ icwe rawCwe, dget x "issue_cwe" (.obj []) = .ok icwe ∧
      dget icwe "id" (.str "") = .ok rawCwe ∧ getField v "cwe" = some rawCwe)
  ∧ (∃ o, getField v "owasp" = some (.str o) ∧ o ∈ owaspCategories) := by
  unfold banditRec at h
  simp only [except_bind_ok] at h
  obtain ⟨title, -, sevRaw, -, sev, hsev, desc, -, file, -, line, -, snip, -,
    icwe, hicwe, cw, hcw, tn, -, ow, how, hpure⟩ := h
  rw [except_pure_ok] at hpure
  subst hpure
  refine ⟨?_, ?_, ?_⟩
  · obtain ⟨t, rfl⟩ := pyUpper_ok _ _ hsev
    exact ⟨t, rfl⟩
  · exact ⟨icwe, cw, hicwe, hcw, rfl⟩
  · exact ⟨ow, rfl, mapToOwasp_ok_mem _ _ how⟩

theorem npmRec_fields (kv : String × JVal) (v : JVal) (h : npmRec kv = .ok v) :
    (∃ s, getField v "severity" = some (.str (upperS s)))
  ∧ getField v "cwe" = some (.str "")
  ∧ getField v "owasp" = some (.str "A06:2021 - Vulnerable Components") := by
  unfold npmRec at h
  simp only [except_bind_ok] at h
  obtain ⟨title, -, sevRaw, -, sev, hsev, desc, -, pk, -, ver, -,
    fixA, -, fi, -, fixB, -, fv, -, hpure⟩ := h
  rw [except_pure_ok] at hpure
  subst hpure
  refine ⟨?_, rfl, rfl⟩
  obtain ⟨t, rfl⟩ := pyUpper_ok _ _ hsev
  exact ⟨t, rfl⟩

theorem cwe_mapping_getD_pattern (p : String × String → Bool) :
    matchesCwePattern (((CWE_MAPPING.find? p).map (fun q => q.2)).getD "CWE-Unknown")
      = true := by
  cases hf : CWE_MAPPING.find? p with
  | none => decide
  | some q =>
    have hall : ∀ r ∈ CWE_MAPPING, matchesCwePattern r.2 = true := by decide
    exact hall q (List.mem_of_find?_eq_some hf)

theorem nodejsscanRec_fields (cat : String) (x v : JVal)
    (h : nodejsscanRec cat x = .ok v) :
    (∃ s, getField v "severity" = some (.str (upperS s)))
  ∧ (∃ cw, getField v "cwe" = some (.str cw) ∧ matchesCwePattern cw = true)
  ∧ (∃ o, getField v "owasp" = some (.str o) ∧ o ∈ owaspCategories) := by
  unfold nodejsscanRec at h
  simp only [except_bind_ok] at h
  obtain ⟨title, -, sevRaw, -, sev, hsev, desc, -, file, -, line, -, snip, -,
    rec, -, hpure⟩ := h
  rw [except_pure_ok] at hpure
  subst hpure
  refine ⟨?_, ?_, ?_⟩
  · obtain ⟨t, rfl⟩ := pyUpper_ok _ _ hsev
    exact ⟨t, rfl⟩
  · exact ⟨_, rfl, cwe_mapping_getD_pattern _⟩
  · exact ⟨_, rfl, mapToOwaspStr_mem cat⟩

theorem snykRec_fields (pn : JVal) (x v : JVal) (h : snykRec pn x = .ok v) :
    (∃ s, getField v "severity" = some (.str (upperS s)))
  ∧ getField v "owasp" = some (.str "A06:2021 - Vulnerable Components") := by
  unfold snykRec at h
  simp only [except_bind_ok] at h
  obtain ⟨idD, -, title, -, sevRaw, -, sev, hsev, desc, -, modD, -,
    pk, -, ver, -, fi, -, cw, -, cvss, -, rec, -, hpure⟩ := h
  rw [except_pure_ok] at hpure
  subst hpure
  refine ⟨?_, rfl⟩
  obtain ⟨t, rfl⟩ := pyUpper_ok _ _ hsev
  exact ⟨t, rfl⟩

theorem zapJsonRec_fields (x v : JVal) (h : zapJsonRec x = .ok v) :
    (∃ s, getField v "severity" = some (.str s) ∧ s ∈ canonicalSeverities)
  ∧ (∃ o, getField v "owasp" = some (.str o) ∧ o ∈ owaspCategories) := by
  unfold zapJsonRec at h
  simp only [except_bind_ok] at h
  obtain ⟨title, -, risk, -, desc, -, iA, -, fA, -, url, -, iB, -, fB, -,
    method, -, iC, -, fC, -, param, -, cweid, -, nm, -, ow, how, rec, -, hpure⟩ := h
  rw [except_pure_ok] at hpure
  subst hpure
  refine ⟨?_, ?_⟩
  · exact ⟨_, rfl, map_zap_risk_mem risk⟩
  · exact ⟨ow, rfl, mapToOwasp_ok_mem _ _ how⟩

theorem zapXmlRec_fields (alert : XmlNode) (v : JVal) (h : zapXmlRec alert = .ok v) :
    (∃ s, getField v "severity" = some (.str s) ∧ s ∈ canonicalSeverities)
  ∧ (∃ o, getField v "owasp" = some (.str o) ∧ o ∈ owaspCategories) := by
  unfold zapXmlRec at h
  simp only [except_bind_ok] at h
  obtain ⟨ow, how, hpure⟩ := h
  rw [except_pure_ok] at hpure
  subst hpure
  refine ⟨?_, ?_⟩
  · exact ⟨_, rfl, map_zap_risk_mem _⟩
  · exact ⟨ow, rfl, mapToOwasp_ok_mem _ _ how⟩

theorem matchCweOptDashAt_ok (cs ds : List Char) (h : matchCweOptDashAt cs = some ds) :
    ds ≠ [] ∧ ds.all Char.isDigit = true := by
  unfold matchCweOptDashAt at h
  split at h
  · split at h
    · split at h
      · dsimp only at h
        split at h
        · exact Option.noConfusion h
        · injection h with h
          subst h
          refine ⟨?_, List.all_takeWhile⟩
          simp_all [List.isEmpty_iff]
      · dsimp only at h
        split at h
        · exact Option.noConfusion h
        · injection h with h
          subst h
          refine ⟨?_, List.all_takeWhile⟩
          simp_all [List.isEmpty_iff]
    · exact Option.noConfusion h
  · exact Option.noConfusion h

theorem searchCweOptDash_ok (cs ds : List Char) (h : searchCweOptDash cs = some ds) :
    ds ≠ [] ∧ ds.all Char.isDigit = true := by
  induction cs with
  | nil => exact Option.noConfusion h
  | cons c rest ih =>
    rw [searchCweOptDash] at h
    cases hm : matchCweOptDashAt (c :: rest) with
    | some ds2 =>
      rw [hm] at h
      injection h with h
      subst h
      exact matchCweOptDashAt_ok _ _ hm
    | none =>
      rw [hm] at h
      exact ih h

theorem cweFromTags_ok (l : List JVal) (c : String)
    (h : cweFromTags l = .ok (some c)) : matchesCwePattern c = true := by
  induction l with
  | nil =>
    simp only [cweFromTags, Except.ok.injEq] at h
    exact Option.noConfusion h
  | cons tag rest ih =>
    unfold cweFromTags at h
    cases tag with
    | str s =>
      dsimp only at h
      split at h
      · cases hs : searchCweOptDash s.data with
        | some ds =>
          rw [hs] at h
          injection h with h
          injection h with h
          subst h
          obtain ⟨hne, hdig⟩ := searchCweOptDash_ok _ _ hs
          exact cwe_concat_pattern ds hne hdig
        | none =>
          rw [hs] at h
          exact ih h
      · exact ih h
    | null => exact Except.noConfusion h
    | bool b => exact Except.noConfusion h
    | num n => exact Except.noConfusion h
    | arr xs => exact Except.noConfusion h
    | obj fs => exact Except.noConfusion h

theorem extract_cwe_from_codeql_ok (x : JVal) (s : String)
    (h : extract_cwe_from_codeql x = .ok s) : matchesCwePattern s = true := by
  unfold extract_cwe_from_codeql at h
  simp only [except_bind_ok] at h
  obtain ⟨props, -, tags, -, tagsL, -, mr, hmr, hmatch⟩ := h
  cases mr with
  | some c =>
    rw [except_pure_ok] at hmatch
    subst hmatch
    exact cweFromTags_ok _ _ hmr
  | none =>
    simp only [except_bind_ok] at hmatch
    obtain ⟨rule, -, hif⟩ := hmatch
    split at hif
    · simp only [except_bind_ok] at hif
      obtain ⟨rp, -, rtags, -, rtagsL, -, mr2, hmr2, hm2⟩ := hif
      cases mr2 with
      | some c =>
        rw [except_pure_ok] at hm2
        subst hm2
        exact cweFromTags_ok _ _ hmr2
      | none =>
        rw [except_pure_ok] at hm2
        subst hm2
        decide
    · rw [except_pure_ok] at hif
      subst hif
      decide

theorem codeqlRec_fields (x v : JVal) (h : codeqlRec x = .ok (some v)) :
    (∃ s, getField v "severity" = some (.str s) ∧ s ∈ canonicalSeverities)
  ∧ (∃ cw, getField v "cwe" = some (.str cw) ∧ matchesCwePattern cw = true)
  ∧ (∃ o, getField v "owasp" = some (.str o) ∧ o ∈ owaspCategories) := by
  unfold codeqlRec at h
  simp only [except_bind_ok] at h
  obtain ⟨locs, -, hif⟩ := h
  split at hif
  · rw [except_pure_ok] at hif
    exact Option.noConfusion hif
  · simp only [except_bind_ok] at hif
    obtain ⟨loc0, -, location, -, artifact, -, region, -, rule_id, -, msgO, -,
      message, -, level, -, sev, hsev, file, -, line, -, snipO, -, snip, -,
      cw, hcw, ow, how, rec, -, hpure⟩ := hif
    rw [except_pure_ok] at hpure
    injection hpure with hpure
    subst hpure
    refine ⟨?_, ?_, ?_⟩
    · exact ⟨sev, rfl, map_codeql_level_ok_mem _ _ hsev⟩
    · exact ⟨cw, rfl, extract_cwe_from_codeql_ok _ _ hcw⟩
    · exact ⟨ow, rfl, mapToOwasp_ok_mem _ _ how⟩

theorem parse_semgrep_mem (c : String) (v : JVal) (hv : v ∈ (parse_semgrep c).1) :
    ∃ x, semgrepRec x = .ok v := by
  unfold parse_semgrep at hv
  split at hv
  · simp at hv
  · split at hv
    · simp at hv
    · split at hv
      · simp at hv
      · obtain ⟨x, -, hx⟩ := collectPartial_mem _ _ _ hv
        exact ⟨x, hx⟩

theorem parse_bandit_mem (c : String) (v : JVal) (hv : v ∈ (parse_bandit c).1) :
    ∃ x, banditRec x = .ok v := by
  unfold parse_bandit at hv
  split at hv
  · simp at hv
  · split at hv
    · simp at hv
    · split at hv
      · simp at hv
      · obtain ⟨x, -, hx⟩ := collectPartial_mem _ _ _ hv
        exact ⟨x, hx⟩

theorem parse_npm_audit_mem (c : String) (v : JVal) (hv : v ∈ (parse_npm_audit c).1) :
    ∃ kv, npmRec kv = .ok v := by
  unfold parse_npm_audit at hv
  split at hv
  · simp at hv
  · split at hv
    · simp at hv
    · split at hv
      · simp at hv
      · obtain ⟨x, -, hx⟩ := collectPartial_mem _ _ _ hv
        exact ⟨x, hx⟩

theorem parse_nodejsscan_mem (c : String) (v : JVal) (hv : v ∈ (parse_nodejsscan c).1) :
    ∃ cat x, nodejsscanRec cat x = .ok v := by
  unfold parse_nodejsscan at hv
  split at hv
  · simp at hv
  · split at hv
    · simp at hv
    · split at hv
      · simp at hv
      · obtain ⟨kv, -, hkv⟩ := collectPartialF_mem _ _ _ hv
        split at hkv
        · simp at hkv
        · obtain ⟨x, -, hx⟩ := collectPartial_mem _ _ _ hkv
          exact ⟨_, x, hx⟩

theorem parse_snyk_mem (c : String) (v : JVal) (hv : v ∈ (parse_snyk c).1) :
    ∃ pn x, snykRec pn x = .ok v := by
  unfold parse_snyk at hv
  split at hv
  · simp at hv
  · obtain ⟨project, -, hp⟩ := collectPartialF_mem _ _ _ hv
    split at hp
    · simp at hp
    · split at hp
      · simp at hp
      · split at hp
        · simp at hp
        · obtain ⟨x, -, hx⟩ := collectPartial_mem _ _ _ hp
          exact ⟨_, x, hx⟩

theorem parse_zap_json_mem (c : String) (v : JVal) (hv : v ∈ (parse_zap_json c).1) :
    ∃ a, zapJsonRec a = .ok v := by
  unfold parse_zap_json at hv
  split at hv
  · simp at hv
  · split at hv
    · simp at hv
    · split at hv
      · simp at hv
      · obtain ⟨site, -, hs⟩ := collectPartialF_mem _ _ _ hv
        split at hs
        · simp at hs
        · split at hs
          · simp at hs
          · obtain ⟨a, -, ha⟩ := collectPartial_mem _ _ _ hs
            exact ⟨a, ha⟩

theorem parse_zap_xml_mem (c : String) (v : JVal) (hv : v ∈ (parse_zap_xml c).1) :
    ∃ a, zapXmlRec a = .ok v := by
  unfold parse_zap_xml at hv
  split at hv
  · simp at hv
  · obtain ⟨site, -, hs⟩ := collectPartialF_mem _ _ _ hv
    obtain ⟨a, -, ha⟩ := collectPartial_mem _ _ _ hs
    exact ⟨a, ha⟩

theorem parse_codeql_mem (c : String) (v : JVal) (hv : v ∈ (parse_codeql_sarif c).1) :
    ∃ x, codeqlRec x = .ok (some v) := by
  unfold parse_codeql_sarif parse_codeql_body at hv
  split at hv
  · simp at hv
  · split at hv
    · simp at hv
    · split at hv
      · simp at hv
      · obtain ⟨run, -, hr⟩ := collectPartialF_mem _ _ _ hv
        split at hr
        · simp at hr
        · split at hr
          · simp at hr
          · split at hr
            · simp at hr
            · obtain ⟨x, -, hx⟩ := collectPartialOpt_mem _ _ _ hr
              exact ⟨x, hx⟩

theorem mem_of_eq_singleton {α : Type} {a : α} {l : List α} (h : l = [a]) : a ∈ l := by
  subst h
  exact List.mem_singleton_self a

theorem parse_semgrep_error_eval :
    (parse_semgrep semgrepErrorReport).1 = [semgrepErrorRecord] := rfl

/-- C1 counterexample: the Semgrep extractor only uppercases the tool's
native severity, so Semgrep's native `error` yields the record severity
`ERROR`, which is not one of the five canonical values. -/

theorem C1_counterexample :
    getField ((parse_semgrep semgrepErrorReport).1.headD .null) "severity"
        = some (.str "ERROR")
    ∧ "ERROR" ∉ canonicalSeverities
    ∧ (parse_semgrep semgrepErrorReport).1.length = 1
    ∧ (parse_semgrep semgrepErrorReport).2 = none :=
  ⟨rfl, by decide, rfl, rfl⟩

/-- C1 (amended): only the CodeQL and ZAP extractors map severities into the
canonical five-value set; the Semgrep, npm-audit and Bandit extractors store
the uppercased native severity string, which need not be canonical. -/

theorem C1_corrected_severity :
    (∀ l s, map_codeql_level l = .ok s → s ∈ canonicalSeverities)
  ∧ (∀ rc, map_zap_risk rc ∈ canonicalSeverities)
  ∧ (∀ c v, v ∈ (parse_zap_json c).1 →
      ∃ s, getField v "severity" = some (.str s) ∧ s ∈ canonicalSeverities)
  ∧ (∀ c v, v ∈ (parse_semgrep c).1 →
      ∃ s, getField v "severity" = some (.str (upperS s)))
  ∧ (∀ c v, v ∈ (parse_npm_audit c).1 →
      ∃ s, getField v "severity" = some (.str (upperS s)))
  ∧ (∀ c v, v ∈ (parse_bandit c).1 →
      ∃ s, getField v "severity" = some (.str (upperS s)))
  ∧ (∀ c v, v ∈ (parse_nodejsscan c).1 →
      ∃ s, getField v "severity" = some (.str (upperS s)))
  ∧ (∀ c v, v ∈ (parse_snyk c).1 →
      ∃ s, getField v "severity" = some (.str (upperS s)))
  ∧ (∀ c v, v ∈ (parse_zap_xml c).1 →
      ∃ s, getField v "severity" = some (.str s) ∧ s ∈ canonicalSeverities) := by
  refine ⟨map_codeql_level_ok_mem, map_zap_risk_mem, ?_, ?_, ?_, ?_, ?_, ?_, ?_⟩
  · intro c v hv
    obtain ⟨a, ha⟩ := parse_zap_json_mem c v hv
    exact (zapJsonRec_fields a v ha).1
  · intro c v hv
    obtain ⟨x, hx⟩ := parse_semgrep_mem c v hv
    exact (semgrepRec_fields x v hx).1
  · intro c v hv
    obtain ⟨kv, hkv⟩ := parse_npm_audit_mem c v hv
    exact (npmRec_fields kv v hkv).1
  · intro c v hv
    obtain ⟨x, hx⟩ := parse_bandit_mem c v hv
    exact (banditRec_fields x v hx).1
  · intro c v hv
    obtain ⟨cat, x, hx⟩ := parse_nodejsscan_mem c v hv
    exact (nodejsscanRec_fields cat x v hx).1
  · intro c v hv
    obtain ⟨pn, x, hx⟩ := parse_snyk_mem c v hv
    exact (snykRec_fields pn x v hx).1
  · intro c v hv
    obtain ⟨a, ha⟩ := parse_zap_xml_mem c v hv
    exact (zapXmlRec_fields a v ha).1

theorem C1_witness :
    map_zap_risk (.str "3") ∈ canonicalSeverities
  ∧ (∃ s, getField semgrepErrorRecord "severity" = some (.str (upperS s))) :=
  ⟨C1_corrected_severity.2.1 (.str "3"),
   C1_corrected_severity.2.2.2.1 semgrepErrorReport semgrepErrorRecord
     (mem_of_eq_singleton parse_semgrep_error_eval)⟩

/-- C2 counterexample: every npm-audit record has `cwe = ""` (the extractor
hardcodes the empty string), violating the `CWE-…` pattern claim. -/

theorem C2_counterexample :
    getField ((parse_npm_audit npmModerateReport).1.headD .null) "cwe"
        = some (.str "")
    ∧ matchesCwePattern "" = false
    ∧ (parse_npm_audit npmModerateReport).1.length = 1
    ∧ (parse_npm_audit npmModerateReport).2 = none :=
  ⟨rfl, by decide, rfl, rfl⟩

/-- C2 (amended): records from the CodeQL, Semgrep and NodeJsScan extractors
always carry a `cwe` matching `CWE-(\d+|Unknown)`; the npm-audit extractor
always stores the empty string, and the Bandit extractor copies the raw
`issue_cwe.id` value — a bare number such as `89` in practice. -/

theorem C2_corrected_cwe :
    (∀ c v, v ∈ (parse_semgrep c).1 →
      ∃ cw, getField v "cwe" = some (.str cw) ∧ matchesCwePattern cw = true)
  ∧ (∀ c v, v ∈ (parse_nodejsscan c).1 →
      ∃ cw, getField v "cwe" = some (.str cw) ∧ matchesCwePattern cw = true)
  ∧ (∀ c v, v ∈ (parse_codeql_sarif c).1 →
      ∃ cw, getField v "cwe" = some (.str cw) ∧ matchesCwePattern cw = true)
  ∧ (∀ c v, v ∈ (parse_npm_audit c).1 → getField v "cwe" = some (.str ""))
  ∧ (∀ x v, banditRec x = .ok v →
      ∃ icwe rawCwe, dget x "issue_cwe" (.obj []) = .ok icwe ∧
        dget icwe "id" (.str "") = .ok rawCwe ∧ getField v "cwe" = some rawCwe)
  ∧ getField ((parse_bandit banditReport89).1.headD .null) "cwe" = some (.num 89) := by
  refine ⟨?_, ?_, ?_, ?_, ?_, rfl⟩
  · intro c v hv
    obtain ⟨x, hx⟩ := parse_semgrep_mem c v hv
    exact (semgrepRec_fields x v hx).2.1
  · intro c v hv
    obtain ⟨cat, x, hx⟩ := parse_nodejsscan_mem c v hv
    exact (nodejsscanRec_fields cat x v hx).2.1
  · intro c v hv
    obtain ⟨x, hx⟩ := parse_codeql_mem c v hv
    exact (codeqlRec_fields x v hx).2.1
  · intro c v hv
    obtain ⟨kv, hkv⟩ := parse_npm_audit_mem c v hv
    exact (npmRec_fields kv v hkv).2.1
  · intro x v hx
    exact (banditRec_fields x v hx).2.1

theorem C2_witness :
    ∃ cw, getField semgrepErrorRecord "cwe" = some (.str cw) ∧
      matchesCwePattern cw = true :=
  C2_corrected_cwe.1 semgrepErrorReport semgrepErrorRecord
    (mem_of_eq_singleton parse_semgrep_error_eval)

/-- C7: every record of every extractor carries an `owasp` field drawn from
the fixed set `owaspCategories` of eleven strings; keyword inference is a
case-insensitive substring scan in declaration order with first match
winning, and an unmatched title falls back to `A04:2021 - Insecure Design`. -/

theorem C7_owasp_field :
    (∀ f v, v ∈ (dispatch f).1 →
      ∃ o, getField v "owasp" = some (.str o) ∧ o ∈ owaspCategories)
  ∧ owaspCategories.length = 11
  ∧ mapToOwaspStr "Obscure Unknown Issue" = "A04:2021 - Insecure Design"
  ∧ mapToOwaspStr "SQL Injection" = "A03:2021 - Injection"
  ∧ mapToOwaspStr "sql injection" = "A03:2021 - Injection"
  ∧ mapToOwaspStr "session access"
      = "A07:2021 - Identification and Authentication Failures" := by
  refine ⟨?_, rfl, rfl, rfl, rfl, rfl⟩
  intro f v hv
  unfold dispatch at hv
  split_ifs at hv
  · obtain ⟨x, hx⟩ := parse_codeql_mem _ v hv
    exact (codeqlRec_fields x v hx).2.2
  · obtain ⟨x, hx⟩ := parse_semgrep_mem _ v hv
    exact (semgrepRec_fields x v hx).2.2
  · obtain ⟨cat, x, hx⟩ := parse_nodejsscan_mem _ v hv
    exact (nodejsscanRec_fields cat x v hx).2.2
  · obtain ⟨x, hx⟩ := parse_bandit_mem _ v hv
    exact (banditRec_fields x v hx).2.2
  · obtain ⟨kv, hkv⟩ := parse_npm_audit_mem _ v hv
    exact ⟨_, (npmRec_fields kv v hkv).2.2, by decide⟩
  · obtain ⟨pn, x, hx⟩ := parse_snyk_mem _ v hv
    exact ⟨_, (snykRec_fields pn x v hx).2, by decide⟩
  · obtain ⟨a, ha⟩ := parse_zap_json_mem _ v hv
    exact (zapJsonRec_fields a v ha).2
  · obtain ⟨a, ha⟩ := parse_zap_xml_mem _ v hv
    exact (zapXmlRec_fields a v ha).2
  · simp at hv
  · simp at hv

theorem dispatch_semgrepFile_eval : (dispatch semgrepFile).1 = [semgrepErrorRecord] := rfl

theorem C7_witness :
    ∃ o, getField semgrepErrorRecord "owasp" = some (.str o) ∧ o ∈ owaspCategories :=
  C7_owasp_field.1 semgrepFile semgrepErrorRecord
    (mem_of_eq_singleton dispatch_semgrepFile_eval)

theorem dincr_sum (m : List (JVal × Nat)) (k : JVal) :
    sumCounts (dincr m k) = sumCounts m + 1 := by
  induction m with
  | nil => rfl
  | cons p rest ih =>
    obtain ⟨k2, n⟩ := p
    unfold dincr
    split
    · simp only [sumCounts, List.map_cons, List.sum_cons]
      omega
    · simp only [sumCounts, List.map_cons, List.sum_cons] at *
      omega

theorem countByAux_sum (key : String) :
    ∀ (vs : List JVal) (m m2 : List (JVal × Nat)),
      countByAux key m vs = .ok m2 → sumCounts m2 = sumCounts m + vs.length := by
  intro vs
  induction vs with
  | nil =>
    intro m m2 h
    simp only [countByAux, Except.ok.injEq] at h
    subst h
    simp
  | cons v vs ih =>
    intro m m2 h
    unfold countByAux at h
    rw [except_bind_ok] at h
    obtain ⟨k, -, hrec⟩ := h
    have := ih _ _ hrec
    rw [dincr_sum] at this
    simp only [List.length_cons]
    omega

/-- The function `save_results` recomputes every aggregate from the final record list, so
all four counts agree with the length of that list. -/

theorem save_results_spec (vulns : List JVal) (md : Metadata)
    (h : save_results vulns = .ok md) :
    sumCounts md.by_severity = md.total_vulnerabilities
  ∧ sumCounts md.by_type = md.total_vulnerabilities
  ∧ sumCounts md.by_tool = md.total_vulnerabilities
  ∧ md.total_vulnerabilities = vulns.length := by
  unfold save_results count_by_severity count_by_type count_by_tool at h
  simp only [except_bind_ok] at h
  obtain ⟨m1, h1, m2, h2, m3, h3, hp⟩ := h
  rw [except_pure_ok] at hp
  subst hp
  have e1 := countByAux_sum "severity" vulns [] m1 h1
  have e2 := countByAux_sum "type" vulns [] m2 h2
  have e3 := countByAux_sum "tool" vulns [] m3 h3
  simp only [sumCounts, List.map_nil, List.sum_nil, Nat.zero_add] at e1 e2 e3
  exact ⟨e1, e2, e3, rfl⟩

/-- C5: in the saved dataset the by-severity, by-type and by-tool totals all
equal `total_vulnerabilities`, which is the length of the record sequence. -/

theorem C5_aggregate_consistency (vulns : List JVal) (md : Metadata)
    (h : save_results vulns = .ok md) :
    sumCounts md.by_severity = md.total_vulnerabilities
  ∧ sumCounts md.by_type = md.total_vulnerabilities
  ∧ sumCounts md.by_tool = md.total_vulnerabilities
  ∧ md.total_vulnerabilities = vulns.length :=
  save_results_spec vulns md h

theorem C5_witness :
    ∃ md, save_results demoVulns = .ok md ∧
      sumCounts md.by_severity = md.total_vulnerabilities ∧
      sumCounts md.by_type = md.total_vulnerabilities ∧
      sumCounts md.by_tool = md.total_vulnerabilities ∧
      md.total_vulnerabilities = demoVulns.length :=
  ⟨_, rfl, C5_aggregate_consistency demoVulns _ rfl⟩

theorem parse_all_acc : ∀ (fs : List RFile) (acc : List JVal),
    parse_all fs acc = acc ++ parse_all fs [] := by
  intro fs
  induction fs with
  | nil => intro acc; simp [parse_all]
  | cons f fs ih =>
    intro acc
    show parse_all fs (acc ++ (dispatch f).1) = acc ++ parse_all fs ([] ++ (dispatch f).1)
    rw [ih (acc ++ (dispatch f).1), ih ([] ++ (dispatch f).1)]
    simp [List.append_assoc]

theorem parse_all_append : ∀ (l1 l2 : List RFile) (acc : List JVal),
    parse_all (l1 ++ l2) acc = parse_all l2 (parse_all l1 acc) := by
  intro l1
  induction l1 with
  | nil => intro l2 acc; rfl
  | cons f l1 ih =>
    intro l2 acc
    show parse_all (l1 ++ l2) (acc ++ (dispatch f).1) = _
    rw [ih]
    rfl

/-- Decomposition of a run of `parse_all`: each file contributes exactly the
records its extractor appended, independent of failures in other files. -/

theorem parse_all_split (fs1 : List RFile) (f : RFile) (fs2 : List RFile) :
    parse_all (fs1 ++ f :: fs2) [] =
      parse_all fs1 [] ++ (dispatch f).1 ++ parse_all fs2 [] := by
  rw [parse_all_append]
  show parse_all fs2 (parse_all fs1 [] ++ (dispatch f).1) = _
  rw [parse_all_acc fs2 (parse_all fs1 [] ++ (dispatch f).1)]

/-- C6: processing is isolated per file — any file's contribution is exactly
the records its extractor appended (even when it raised), the remaining
files are still processed, and a file matching no filename signature is
skipped silently. -/

theorem C6_error_isolation :
    (∀ (fs1 : List RFile) (f : RFile) (fs2 : List RFile),
      parse_all (fs1 ++ f :: fs2) [] =
        parse_all fs1 [] ++ (dispatch f).1 ++ parse_all fs2 [])
  ∧ (∀ f, inName "codeql" f = false → inName "semgrep" f = false →
      inName "nodejsscan" f = false → inName "bandit" f = false →
      inName "npm_audit" f = false → inName "snyk" f = false →
      inName "zap" f = false → dispatch f = ([], none)) := by
  refine ⟨parse_all_split, ?_⟩
  intro f h1 h2 h3 h4 h5 h6 h7
  simp [dispatch, h1, h2, h3, h4, h5, h6, h7]

theorem C6_witness :
    parse_all ([semgrepFile] ++ malformedBanditFile :: [banditFile]) [] =
        parse_all [semgrepFile] [] ++ (dispatch malformedBanditFile).1 ++
          parse_all [banditFile] []
  ∧ dispatch readmeFile = ([], none)
  ∧ (dispatch malformedBanditFile).1 = []
  ∧ (dispatch malformedBanditFile).2 = some (.jsonDecodeError "Expecting value")
  ∧ (parse_all ([semgrepFile] ++ malformedBanditFile :: [banditFile]) []).length = 2 :=
  ⟨C6_error_isolation.1 [semgrepFile] malformedBanditFile [banditFile],
   C6_error_isolation.2 readmeFile rfl rfl rfl rfl rfl rfl rfl,
   rfl, rfl, rfl⟩

/-- C9: when an extractor fails after appending `rs`, those records stay in
the final dataset and are counted by the recomputed aggregates — the
per-file exception handler performs no rollback. -/

theorem C9_no_rollback :
    ∀ (fs1 : List RFile) (f : RFile) (fs2 : List RFile) (rs : List JVal)
      (e : PyError) (md : Metadata),
      dispatch f = (rs, some e) →
      save_results (parse_all (fs1 ++ f :: fs2) []) = .ok md →
      parse_all (fs1 ++ f :: fs2) [] = parse_all fs1 [] ++ rs ++ parse_all fs2 []
      ∧ md.total_vulnerabilities =
          (parse_all fs1 []).length + rs.length + (parse_all fs2 []).length := by
  intro fs1 f fs2 rs e md hd hs
  have hsplit := parse_all_split fs1 f fs2
  rw [hd] at hsplit
  refine ⟨hsplit, ?_⟩
  have htot := (save_results_spec _ _ hs).2.2.2
  rw [htot, hsplit]
  simp only [List.length_append]

theorem C9_witness :
    ∃ md,
      save_results (parse_all ([semgrepFile] ++ zapPartialFile :: [banditFile]) [])
          = .ok md
      ∧ parse_all ([semgrepFile] ++ zapPartialFile :: [banditFile]) [] =
          parse_all [semgrepFile] [] ++ [zapGoodRecord] ++ parse_all [banditFile] []
      ∧ md.total_vulnerabilities =
          (parse_all [semgrepFile] []).length + [zapGoodRecord].length +
            (parse_all [banditFile] []).length :=
  ⟨_, rfl,
   C9_no_rollback [semgrepFile] zapPartialFile [banditFile] [zapGoodRecord]
     (.indexError "list index out of range") _ rfl rfl⟩

/-- C10: the ZAP JSON extractor defaults `url`/`method`/`param` to `""` when
`instances` is absent, raises `IndexError` when `instances` is present but
empty, and the remaining alerts of that file are dropped, the error being
returned to the per-file handler. -/

theorem C10_zap_instances :
    zapJsonRec alertNoInstances = .ok zapGoodRecord
  ∧ zapJsonRec alertEmptyInstances = .error (.indexError "list index out of range")
  ∧ parse_zap_json zapPartialReport =
      ([zapGoodRecord], some (.indexError "list index out of range"))
  ∧ dispatch zapPartialFile =
      ([zapGoodRecord], some (.indexError "list index out of range")) :=
  ⟨rfl, rfl, rfl, rfl⟩


/-- C4 counterexample: on the well-formed JSON input `{}` (no `policies`
field), `parse_policy_response` raises `ValueError` instead of returning a
result. -/

theorem C4_counterexample :
    parse_policy_response "\x7b\x7d" =
      .error (.valueError "Response does not contain policies field") := rfl

/-- C4 (amended): on every input whose preprocessed text is not valid JSON
(the structured-output recovery path), `parse_policy_response` returns a
result — never an exception — with the truncation flag set; inputs that do
parse as JSON but lack a list/`policies` structure can still raise. -/

theorem C4_corrected_no_raise :
    ∀ s, loads (preprocess s) = none →
      parse_policy_response s =
        .ok { policies := .arr (recoverPolicies (preprocess s)),
              total_policies := (recoverPolicies (preprocess s)).length,
              is_truncated := true } := by
  intro s h
  simp only [parse_policy_response]
  rw [h]

theorem C4_witness :
    parse_policy_response "hello" =
      .ok { policies := .arr [], total_policies := 0, is_truncated := true }
  ∧ loads (preprocess "hello") = none :=
  ⟨(C4_corrected_no_raise "hello" rfl).trans rfl, rfl⟩

/-- C8: in the recovery scan, escaped characters are consumed literally,
the in-string flag toggles only on unescaped quotes, depth changes are
honored only outside string literals — and on the example object the
completion check fires exactly once, at the object's real closing brace
(and not at all if that final brace is missing). -/

theorem C8_string_literal_safety :
    (∀ st c, st.escape_next = true →
      (scanStep st c).bracket_depth = st.bracket_depth ∧
      (scanStep st c).in_string = st.in_string ∧
      (scanStep st c).current_policy = st.current_policy ++ [c] ∧
      (scanStep st c).escape_next = false)
  ∧ (∀ st c, (scanStep st c).in_string ≠ st.in_string →
      st.escape_next = false ∧ c = '"')
  ∧ (∀ st c, st.in_string = true → st.escape_next = false →
      (scanStep st c).bracket_depth = st.bracket_depth)
  ∧ (∀ st c, st.escape_next = false → c = '"' →
      (scanStep st c).in_string = !st.in_string)
  ∧ scanAttemptsOn ("[" ++ c8obj).data initScan = [("[" ++ c8obj).data]
  ∧ scanAttemptsOn ("[" ++ String.mk (c8obj.data.dropLast)).data initScan = [] := by
  refine ⟨?_, ?_, ?_, ?_, rfl, rfl⟩
  · intro st c h
    simp [scanStep, h]
  · intro st c h
    unfold scanStep at h
    split_ifs at h with h1 h2 h3 h4 h5 h6
    · simp at h
    · simp at h
    · exact ⟨by simpa using h1, h3⟩
    · simp at h
    · simp at h
    · simp at h
    · simp at h
  · intro st c hin hesc
    unfold scanStep
    split_ifs with h1 h2 h3 h4 h5 h6 <;> first | rfl | simp [hin] at h4
  · intro st c hesc hq
    subst hq
    simp [scanStep, hesc]

theorem C8_witness :
    (scanStep ⟨1, true, true, [], []⟩ '\x7d').bracket_depth = 1
  ∧ (scanStep ⟨1, true, false, [], []⟩ '\x7d').bracket_depth = 1 :=
  ⟨(C8_string_literal_safety.1 ⟨1, true, true, [], []⟩ '\x7d' rfl).1,
   C8_string_literal_safety.2.2.1 ⟨1, true, false, [], []⟩ '\x7d' rfl rfl⟩

end DevSecOps

namespace DevSecOps

theorem suffix_cons_of {α : Type} {l l2 : List α} (a : α) (h : l <:+ l2) :
    l <:+ a :: l2 :=
  h.trans (List.suffix_cons a l2)

theorem skipJsonWs_split (cs : List Char) :
    cs = cs.takeWhile isJsonWs ++ skipJsonWs cs := by
  unfold skipJsonWs
  exact (List.takeWhile_append_dropWhile isJsonWs cs).symm

set_option maxHeartbeats 1000000 in
theorem decodeEscape_suffix (e : Char) (rest2 : List Char) (d : Char)
    (rest3 : List Char) (h : decodeEscape e rest2 = some (d, rest3)) :
    rest3 <:+ rest2 := by
  unfold decodeEscape at h
  split_ifs at h with g1 g2 g3 g4 g5 g6 g7 g8 g9
  any_goals
    simp only [Option.some.injEq, Prod.mk.injEq] at h
    obtain ⟨-, rfl⟩ := h
    exact List.suffix_refl rest2
  · split at h
    · rename_i x1 x2 x3 x4 r3
      split at h
      · split_ifs at h
        simp only [Option.some.injEq, Prod.mk.injEq] at h
        obtain ⟨-, rfl⟩ := h
        exact ⟨[x1, x2, x3, x4], rfl⟩
      · exact Option.noConfusion h
    · exact Option.noConfusion h

theorem parseJStrAux_suffix :
    ∀ (fuel : Nat) (acc cs chars rest : List Char),
      parseJStrAux fuel acc cs = some (chars, rest) → rest <:+ cs := by
  intro fuel
  induction fuel with
  | zero =>
    intro acc cs chars rest h
    cases cs <;> exact Option.noConfusion h
  | succ fuel ih =>
    intro acc cs chars rest h
    cases cs with
    | nil => exact Option.noConfusion h
    | cons c cs0 =>
      unfold parseJStrAux at h
      split_ifs at h with h1 h2
      · simp only [Option.some.injEq, Prod.mk.injEq] at h
        obtain ⟨-, rfl⟩ := h
        exact suffix_cons_of c (List.suffix_refl cs0)
      · cases cs0 with
        | nil => exact Option.noConfusion h
        | cons e rest2 =>
          dsimp only at h
          cases hd : decodeEscape e rest2 with
          | none => rw [hd] at h; exact Option.noConfusion h
          | some p =>
            rw [hd] at h
            have hsuf : p.2 <:+ rest2 :=
              decodeEscape_suffix e rest2 p.1 p.2 (by rw [hd])
            exact suffix_cons_of c (suffix_cons_of e
              ((ih _ _ _ _ h).trans hsuf))
      · exact suffix_cons_of c (ih _ _ _ _ h)

theorem parseJNum_suffix (cs : List Char) (n : Int) (rest : List Char)
    (h : parseJNum cs = some (n, rest)) : rest <:+ cs := by
  unfold parseJNum at h
  split at h
  · dsimp only at h
    split at h
    · exact Option.noConfusion h
    · simp only [Option.some.injEq, Prod.mk.injEq] at h
      obtain ⟨-, rfl⟩ := h
      exact suffix_cons_of _ (List.dropWhile_suffix _)
  · dsimp only at h
    split at h
    · exact Option.noConfusion h
    · simp only [Option.some.injEq, Prod.mk.injEq] at h
      obtain ⟨-, rfl⟩ := h
      exact List.dropWhile_suffix _

theorem parseJ_consume :
    ∀ fuel : Nat,
      (∀ cs v rem, parseJVal fuel cs = some (v, rem) → rem <:+ cs)
    ∧ (∀ cs vs rem, parseJItems fuel cs = some (vs, rem) →
        ∃ pre, cs = pre ++ ']' :: rem)
    ∧ (∀ acc cs fs rem, parseJFields fuel acc cs = some (fs, rem) →
        ∃ pre, cs = pre ++ '}' :: rem) := by
  intro fuel
  induction fuel with
  | zero =>
    refine ⟨?_, ?_, ?_⟩
    · intro cs v rem h; exact Option.noConfusion h
    · intro cs vs rem h; exact Option.noConfusion h
    · intro acc cs fs rem h; exact Option.noConfusion h
  | succ fuel ih =>
    obtain ⟨ihV, ihI, ihF⟩ := ih
    have hskip : ∀ cs : List Char, skipJsonWs cs <:+ cs :=
      fun cs => List.dropWhile_suffix _
    refine ⟨?_, ?_, ?_⟩
    · -- parseJVal
      intro cs v rem h
      rw [parseJVal] at h
      split at h
      · -- null
        rename_i rest heq
        simp only [Option.some.injEq, Prod.mk.injEq] at h
        obtain ⟨-, rfl⟩ := h
        exact (show rest <:+ 'n' :: 'u' :: 'l' :: 'l' :: rest from
          ⟨['n', 'u', 'l', 'l'], rfl⟩).trans (heq ▸ hskip cs)
      · rename_i rest heq
        simp only [Option.some.injEq, Prod.mk.injEq] at h
        obtain ⟨-, rfl⟩ := h
        exact (show rest <:+ 't' :: 'r' :: 'u' :: 'e' :: rest from
          ⟨['t', 'r', 'u', 'e'], rfl⟩).trans (heq ▸ hskip cs)
      · rename_i rest heq
        simp only [Option.some.injEq, Prod.mk.injEq] at h
        obtain ⟨-, rfl⟩ := h
        exact (show rest <:+ 'f' :: 'a' :: 'l' :: 's' :: 'e' :: rest from
          ⟨['f', 'a', 'l', 's', 'e'], rfl⟩).trans (heq ▸ hskip cs)
      · -- string
        rename_i rest heq
        cases hs : parseJStrAux (rest.length + 1) [] rest with
        | none => rw [hs] at h; exact Option.noConfusion h
        | some p =>
          rw [hs] at h
          obtain ⟨chars, rest2⟩ := p
          simp only [Option.some.injEq, Prod.mk.injEq] at h
          obtain ⟨-, rfl⟩ := h
          exact ((parseJStrAux_suffix _ _ _ _ _ hs).trans
            (suffix_cons_of '"' (List.suffix_refl rest))).trans (heq ▸ hskip cs)
      · -- array
        rename_i rest heq
        split at h
        · rename_i rest2 heq2
          simp only [Option.some.injEq, Prod.mk.injEq] at h
          obtain ⟨-, rfl⟩ := h
          have h2 : rest2 <:+ rest :=
            (suffix_cons_of ']' (List.suffix_refl rest2)).trans (heq2 ▸ hskip rest)
          exact (h2.trans (suffix_cons_of '[' (List.suffix_refl rest))).trans
            (heq ▸ hskip cs)
        · cases hi : parseJItems fuel rest with
          | none => rw [hi] at h; exact Option.noConfusion h
          | some p =>
            rw [hi] at h
            obtain ⟨items, rest2⟩ := p
            simp only [Option.some.injEq, Prod.mk.injEq] at h
            obtain ⟨-, rfl⟩ := h
            obtain ⟨pre, hpre⟩ := ihI rest items rest2 hi
            have h2 : rest2 <:+ rest := by
              rw [hpre]
              exact ⟨pre ++ [']'], by simp⟩
            exact (h2.trans (suffix_cons_of '[' (List.suffix_refl rest))).trans
              (heq ▸ hskip cs)
      · -- object
        rename_i rest heq
        split at h
        · rename_i rest2 heq2
          simp only [Option.some.injEq, Prod.mk.injEq] at h
          obtain ⟨-, rfl⟩ := h
          have h2 : rest2 <:+ rest :=
            (suffix_cons_of '}' (List.suffix_refl rest2)).trans (heq2 ▸ hskip rest)
          exact (h2.trans (suffix_cons_of '{' (List.suffix_refl rest))).trans
            (heq ▸ hskip cs)
        · cases hf : parseJFields fuel [] rest with
          | none => rw [hf] at h; exact Option.noConfusion h
          | some p =>
            rw [hf] at h
            obtain ⟨fs, rest2⟩ := p
            simp only [Option.some.injEq, Prod.mk.injEq] at h
            obtain ⟨-, rfl⟩ := h
            obtain ⟨pre, hpre⟩ := ihF [] rest fs rest2 hf
            have h2 : rest2 <:+ rest := by
              rw [hpre]
              exact ⟨pre ++ ['\x7d'], by simp⟩
            exact (h2.trans (suffix_cons_of '{' (List.suffix_refl rest))).trans
              (heq ▸ hskip cs)
      · -- number
        cases hn : parseJNum (skipJsonWs cs) with
        | none => rw [hn] at h; exact Option.noConfusion h
        | some p =>
          rw [hn] at h
          obtain ⟨num, rest⟩ := p
          simp only [Option.some.injEq, Prod.mk.injEq] at h
          obtain ⟨-, rfl⟩ := h
          exact (parseJNum_suffix _ _ _ hn).trans (hskip cs)
    · -- parseJItems
      intro cs vs rem h
      rw [parseJItems] at h
      cases hV : parseJVal fuel cs with
      | none => rw [hV] at h; exact Option.noConfusion h
      | some p =>
        rw [hV] at h
        obtain ⟨v, rest⟩ := p
        obtain ⟨p1, hp1⟩ := ihV cs v rest hV
        have hws := skipJsonWs_split rest
        dsimp only at h
        split at h
        · -- comma
          rename_i rest2 heq
          cases hi : parseJItems fuel rest2 with
          | none => rw [hi] at h; exact Option.noConfusion h
          | some q =>
            rw [hi] at h
            obtain ⟨vs2, rest3⟩ := q
            simp only [Option.some.injEq, Prod.mk.injEq] at h
            obtain ⟨-, rfl⟩ := h
            obtain ⟨pre2, hpre2⟩ := ihI rest2 vs2 rest3 hi
            refine ⟨p1 ++ rest.takeWhile isJsonWs ++ ',' :: pre2, ?_⟩
            rw [← hp1]
            conv_lhs => rw [hws]
            rw [heq, hpre2]
            simp
        · -- closing bracket
          rename_i rest2 heq
          simp only [Option.some.injEq, Prod.mk.injEq] at h
          obtain ⟨-, rfl⟩ := h
          refine ⟨p1 ++ rest.takeWhile isJsonWs, ?_⟩
          rw [← hp1]
          conv_lhs => rw [hws]
          rw [heq]
          simp
        · exact Option.noConfusion h
    · -- parseJFields
      intro acc cs fs rem h
      rw [parseJFields] at h
      split at h
      · -- key string
        rename_i rest heq
        cases hs : parseJStrAux (rest.length + 1) [] rest with
        | none => rw [hs] at h; exact Option.noConfusion h
        | some p =>
          rw [hs] at h
          dsimp only at h
          obtain ⟨kchars, rest2⟩ := p
          obtain ⟨ps, hps⟩ := parseJStrAux_suffix _ _ _ _ _ hs
          have hws0 := skipJsonWs_split cs
          have hws2 := skipJsonWs_split rest2
          split at h
          · -- colon
            rename_i rest3 heq3
            cases hV : parseJVal fuel rest3 with
            | none => rw [hV] at h; exact Option.noConfusion h
            | some q =>
              rw [hV] at h
              dsimp only at h
              obtain ⟨v, rest4⟩ := q
              obtain ⟨pv, hpv⟩ := ihV rest3 v rest4 hV
              have hws4 := skipJsonWs_split rest4
              split at h
              · -- comma: recurse
                rename_i rest5 heq5
                obtain ⟨pre2, hpre2⟩ := ihF _ rest5 fs rem h
                refine ⟨cs.takeWhile isJsonWs ++ '"' :: ps ++
                  rest2.takeWhile isJsonWs ++ ':' :: pv ++
                  rest4.takeWhile isJsonWs ++ ',' :: pre2, ?_⟩
                conv_lhs => rw [hws0]
                rw [heq, ← hps]
                conv_lhs => rw [hws2]
                rw [heq3, ← hpv]
                conv_lhs => rw [hws4]
                rw [heq5, hpre2]
                simp
              · -- closing brace
                rename_i rest5 heq5
                simp only [Option.some.injEq, Prod.mk.injEq] at h
                obtain ⟨-, rfl⟩ := h
                refine ⟨cs.takeWhile isJsonWs ++ '"' :: ps ++
                  rest2.takeWhile isJsonWs ++ ':' :: pv ++
                  rest4.takeWhile isJsonWs, ?_⟩
                conv_lhs => rw [hws0]
                rw [heq, ← hps]
                conv_lhs => rw [hws2]
                rw [heq3, ← hpv]
                conv_lhs => rw [hws4]
                rw [heq5]
                simp
              · exact Option.noConfusion h
          · exact Option.noConfusion h
      · exact Option.noConfusion h


theorem loads_bracket_brace_none (s : String)
    (hhead : s.data.head? = some '[')
    (hlast : s.data.getLast? = some '\x7d') : loads s = none := by
  unfold loads
  cases hp : parseJVal (s.length + 1) s.data with
  | none => rfl
  | some p =>
    obtain ⟨v, rest⟩ := p
    change (if (skipJsonWs rest).isEmpty = true then some v else none) = none
    split
    · rename_i hemp
      exfalso
      obtain ⟨tl, htl⟩ : ∃ tl, s.data = '[' :: tl := by
        cases hd : s.data with
        | nil => rw [hd] at hhead; exact Option.noConfusion hhead
        | cons c tl =>
          rw [hd] at hhead
          simp only [List.head?_cons, Option.some.injEq] at hhead
          exact ⟨tl, by rw [hhead]⟩
      have hws : ∀ x ∈ rest, isJsonWs x = true := by
        rw [List.isEmpty_iff] at hemp
        rw [← List.dropWhile_eq_nil_iff]
        exact hemp
      rw [htl] at hp
      have hbr : parseJVal (s.length + 1) ('[' :: tl) =
          (match skipJsonWs tl with
           | ']' :: rest2 => some (.arr [], rest2)
           | _ =>
             match parseJItems s.length tl with
             | some (items, rest2) => some (.arr items, rest2)
             | none => none) := rfl
      rw [hbr] at hp
      have hdec : ∃ pre, tl = pre ++ ']' :: rest := by
        split at hp
        · rename_i rest2 heq
          simp only [Option.some.injEq, Prod.mk.injEq] at hp
          obtain ⟨-, rfl⟩ := hp
          refine ⟨tl.takeWhile isJsonWs, ?_⟩
          conv_lhs => rw [skipJsonWs_split tl]
          rw [heq]
        · cases hi : parseJItems s.length tl with
          | none => rw [hi] at hp; exact Option.noConfusion hp
          | some q =>
            rw [hi] at hp
            dsimp only at hp
            obtain ⟨items, rest2⟩ := q
            simp only [Option.some.injEq, Prod.mk.injEq] at hp
            obtain ⟨-, rfl⟩ := hp
            exact (parseJ_consume s.length).2.1 tl items _ hi
      obtain ⟨pre, hpre⟩ := hdec
      rw [htl, hpre] at hlast
      have h1 : ('[' :: (pre ++ ']' :: rest)).getLast? = (']' :: rest).getLast? := by
        rw [show '[' :: (pre ++ ']' :: rest) = ('[' :: pre) ++ ']' :: rest by simp]
        exact List.getLast?_append_of_ne_nil _ (by simp)
      rw [h1] at hlast
      cases rest with
      | nil => exact absurd hlast (by decide)
      | cons c rest2 =>
        have h2 : (']' :: c :: rest2).getLast? = (c :: rest2).getLast? := by
          rw [show ']' :: c :: rest2 = [']'] ++ c :: rest2 from rfl]
          exact List.getLast?_append_of_ne_nil _ (by simp)
        rw [h2] at hlast
        have hm : '\x7d' ∈ c :: rest2 := List.mem_of_mem_getLast? hlast
        exact absurd (hws _ hm) (by decide)
    · rfl

theorem head?_append_left {l1 l2 : List Char} {a : Char}
    (h : l1.head? = some a) : (l1 ++ l2).head? = some a := by
  cases l1 with
  | nil => exact Option.noConfusion h
  | cons b t => simpa using h

theorem matchPoliciesHere_bracket (cs r : List Char)
    (h : matchPoliciesHere cs = some r) : ∃ rest, r = '[' :: rest := by
  unfold matchPoliciesHere at h
  split_ifs at h
  split at h
  · split at h
    · rename_i rest4 heq
      simp only [Option.some.injEq] at h
      exact ⟨rest4, h.symm⟩
    · exact Option.noConfusion h
  · exact Option.noConfusion h

theorem findPoliciesArr_bracket :
    ∀ (l cs : List Char), findPoliciesArr l = some cs → ∃ rest, cs = '[' :: rest := by
  intro l
  induction l with
  | nil => intro cs h; exact Option.noConfusion h
  | cons c l0 ih =>
    intro cs h
    rw [findPoliciesArr] at h
    cases hm : matchPoliciesHere (c :: l0) with
    | some r =>
      rw [hm] at h
      simp only [Option.some.injEq] at h
      subst h
      exact matchPoliciesHere_bracket _ _ hm
    | none =>
      rw [hm] at h
      exact ih cs h

theorem scanStep_current (st : ScanSt) (c : Char) :
    (scanStep st c).current_policy = st.current_policy ++ [c] := by
  unfold scanStep
  split_ifs <;> rfl

theorem scanStep_policies (st : ScanSt) (c : Char) :
    (scanStep st c).policies_text = st.policies_text := by
  unfold scanStep
  split_ifs <;> rfl

theorem scanCompletes_brace (st : ScanSt) (c : Char)
    (h : scanCompletes st c = true) : c = '\x7d' := by
  unfold scanCompletes at h
  simp only [Bool.and_eq_true, beq_iff_eq] at h
  exact h.1.2

/-- Once the scan accumulator starts with the `[` of the policies array, no
candidate ever parses (every candidate starts with `[` and ends with the
closing brace that completed it), so no policy is ever appended. -/
theorem scanLoop_no_policies :
    ∀ (fuel : Nat) (cs : List Char) (st : ScanSt),
      st.current_policy.head? = some '[' →
      (scanLoop fuel cs st).policies_text = st.policies_text := by
  intro fuel
  induction fuel with
  | zero => intro cs st h; cases cs <;> rfl
  | succ fuel ih =>
    intro cs st hhead
    cases cs with
    | nil => rfl
    | cons c rest =>
      have hred : scanLoop (fuel + 1) (c :: rest) st =
          (if scanCompletes st c then
            match loads (String.mk (scanStep st c).current_policy) with
            | some v =>
              scanLoop fuel (dropSep rest)
                { scanStep st c with
                    policies_text := (scanStep st c).policies_text ++ [v],
                    current_policy := [] }
            | none => scanLoop fuel (dropSep rest) (scanStep st c)
          else scanLoop fuel rest (scanStep st c)) := rfl
      rw [hred]
      have hcur : (scanStep st c).current_policy.head? = some '[' := by
        rw [scanStep_current]
        exact head?_append_left hhead
      by_cases hc : scanCompletes st c = true
      · rw [if_pos hc]
        have hbrace := scanCompletes_brace st c hc
        have hnone : loads (String.mk (scanStep st c).current_policy) = none := by
          apply loads_bracket_brace_none
          · exact hcur
          · show ((scanStep st c).current_policy).getLast? = some '\x7d'
            rw [scanStep_current, hbrace]
            exact List.getLast?_append_of_ne_nil _ (by simp)
        rw [hnone]
        rw [ih (dropSep rest) (scanStep st c) hcur]
        exact scanStep_policies st c
      · rw [if_neg hc]
        rw [ih rest (scanStep st c) hcur]
        exact scanStep_policies st c

/-- The partial-JSON recovery of `parse_policy_response` is dead code: the
accumulator is seeded with the `[` of the policies array and never reset on
a failed parse, so every candidate handed to `json.loads` starts with `[`
and ends with `\x7d` and fails to parse; no input ever yields a recovered
policy. -/
theorem recoverPolicies_empty (t : String) : recoverPolicies t = [] := by
  unfold recoverPolicies
  cases hf : findPoliciesArr t.data with
  | none => rfl
  | some cs =>
    obtain ⟨rest, rfl⟩ := findPoliciesArr_bracket _ _ hf
    show (scanLoop (('[' :: rest).length + 1) ('[' :: rest) initScan).policies_text = []
    have hred : scanLoop (('[' :: rest).length + 1) ('[' :: rest) initScan =
        scanLoop (rest.length + 1) rest (scanStep initScan '[') := rfl
    rw [hred]
    exact scanLoop_no_policies (rest.length + 1) rest (scanStep initScan '[') rfl

/-- C3: evaluating `parse_policy_response` at the truncated example.  The
scan seeds the accumulator with the `[` of the policies array
(`start_idx = policies_match.end() - 1`) and never resets it on a failed
parse, so both candidates handed to `json.loads` — `[{"a":1}` and then
`[{"a":1}{"b":2}` — fail, and the recovery returns zero policies (with the
truncation flag set), not the two complete objects.  In fact the recovery
is dead code: on every input it extracts nothing (`recoverPolicies_empty`). -/
theorem C3_recovery_eval :
    parse_policy_response truncatedPolicyResponse =
      .ok { policies := .arr [], total_policies := 0, is_truncated := true }
  ∧ scanAttemptsOn ("[\x7b\"a\":1\x7d,\x7b\"b\":2\x7d,\x7b\"c\":").data initScan =
      [("[\x7b\"a\":1\x7d").data, ("[\x7b\"a\":1\x7d\x7b\"b\":2\x7d").data]
  ∧ loads "[\x7b\"a\":1\x7d" = none
  ∧ loads "\x7b\"a\":1\x7d" = some (.obj [("a", .num 1)])
  ∧ (∀ t, recoverPolicies t = []) :=
  ⟨rfl, rfl, rfl, rfl, recoverPolicies_empty⟩

end DevSecOps
